import Mathlib

/-!
# trustanchor: selection of the funding input and construction of the anchor transaction

A shallow embedding of `src/trustanchor/main.go`.  The program is one sequential
procedure, `main`; it is split here along its own section comments into
`loadConfig` (lines 143-178), the selection loop (lines 236-278), `selectInput`
(lines 232-282), `build` (lines 292-345), `spend`, `body` and `withWallet`
(lines 189-345) and `main`.

Amounts are `float64` in the source.  A finite `float64` is modelled by the
rational number it stands for (`encoding/json` decodes neither NaN nor an
infinity, so the amounts and the fee that `main` receives are finite).  The
comparisons of lines 272 and 283 are exact on `float64`, so they are the
comparisons of the rationals; the subtraction of line 301 rounds, and is
modelled by `subFloat64`.  Bytes are natural numbers below 256.  The node (package `rpc`) and the helpers of package
`util` are not part of the repository: they are parameters of the model.
-/

namespace TrustAnchor

/-! ## Data -/

/-- The injection configuration, `type Config struct` (lines 122-133). -/
structure Config where
  Server : String
  User : String
  Password : String
  AnchorKey : String
  Receiver : String
  Fee : ℚ
  Limit : ℚ
  Data : String
  Passphrase : String
  TestNet : Bool
  deriving DecidableEq

/-- The fields of `rpc.Output`: a transaction id and an output index (a Go `int`). -/
structure Output where
  Id : String
  Vout : Int
  deriving DecidableEq

/-- The result of an arithmetic operation on finite `float64` values: a finite
value, or an infinity when the rounded result is out of range. -/
inductive Float64 where
  | finite (value : ℚ)
  | inf (negative : Bool)
  deriving DecidableEq

/-- The integer nearest to `x`; of two equally near, the even one. -/
def roundHalfEven (x : ℚ) : ℤ :=
  if x - ⌊x⌋ < 1 / 2 then ⌊x⌋
  else if 1 / 2 < x - ⌊x⌋ then ⌊x⌋ + 1
  else if ⌊x⌋ % 2 = 0 then ⌊x⌋ else ⌊x⌋ + 1

/-- The exponent of the unit in the last place of `float64` at `x`: 52 below the
binary exponent of `x`, and -1074 in the subnormal range. -/
def ulpExp (x : ℚ) : ℤ :=
  max (Int.log 2 |x|) (-1022) - 52

/-- IEEE 754 rounding of a real result to `float64`, to nearest and ties to even,
as Go does for every `float64` operation: the nearest multiple of the unit in
the last place, and an infinity when that reaches 2^1024. -/
def roundFloat64 (x : ℚ) : Float64 :=
  if x = 0 then .finite 0
  else
    let y : ℚ := roundHalfEven (|x| / 2 ^ ulpExp x) * 2 ^ ulpExp x
    if (2 : ℚ) ^ (1024 : ℤ) ≤ y then .inf (decide (x < 0))
    else .finite (if x < 0 then -y else y)

/-- Go's `a - b` on finite `float64` values (line 301): the exact difference,
rounded.  The sign of a zero is not kept.  A difference of two `float64` values
is a multiple of 2^-1074, so it is zero only when the two are equal; the result
is then +0, except for (-0) - (+0), which line 272 excludes: a picked balance
is strictly greater than twice the fee. -/
def subFloat64 (a b : ℚ) : Float64 :=
  roundFloat64 (a - b)

/-- The fields of `rpc.Balance`: an address and an amount.  The amount `main` puts
there is the result of a subtraction. -/
structure Balance where
  Address : String
  Amount : Float64
  deriving DecidableEq

/-- The fields of `rpc.Unspent` that `main` reads: the embedded `Output`, the script
as a hex string and the amount. -/
structure Unspent where
  Output : Output
  ScriptPubKey : String
  Amount : ℚ
  deriving DecidableEq

/-- The functions of package `util`, and the one fact about the Go runtime the loop
depends on.  `Hash256` returns the 32 bytes of a double SHA-256, so that `cs[:4]`
at line 258 is in range.  `spare s` lists the bytes that the backing array of
`hex.DecodeString(s)` holds past the length of the returned slice: Go checks the
slice expression `script[2:23]` against the capacity, not the length.  It is
empty when the array is allocated exactly. -/
structure Env where
  Hash256 : List Nat → List Nat
  Hash256_length : ∀ data, (Hash256 data).length = 32
  Base58Encode : List Nat → String
  NullDataScript : List Nat → Option (List Nat)
  ReplaceScriptPubKey : String → List Nat → Option String
  spare : String → List Nat

/-- The answers of the node, one field per method of `rpc.Session` that `main`
calls.  `none`, or `true` for a method that only returns an error, stands for
`err != nil`.  The error of `DecodeRawTransactionAsObject` is discarded at line
335, so the method has no field.  `main` calls each method at most once, so
an answer that depends on the arguments only is as general as a stateful node. -/
structure Node where
  NewSession : String → String → String → Bool
  WalletPassphrase : String → Nat → Bool
  ListReceivedByAddress : Nat → Bool → Option (List String)
  ListUnspent : Nat → Nat → Option (List Unspent)
  CreateRawTransaction : List Output → List Balance → Option String
  SignRawTransaction : String → String → Option (String × Bool)
  SendRawTransaction : String → Bool
  WalletLock : Bool

/-- What the process finds outside the node: its arguments, the configuration that
a file name opens to (`none`: `os.Open` fails; `some none`: the JSON decoder
fails) and the line read from standard input (`none`: `ReadLine` fails). -/
structure Host where
  args : List String
  file : String → Option (Option Config)
  stdin : Option String

/-- The calls `main` makes to the node and to package `util`, with their arguments. -/
inductive Call where
  | NewSession (server user password : String)
  | WalletPassphrase (passphrase : String) (timeout : Nat)
  | ListReceivedByAddress (minConf : Nat) (includeEmpty : Bool)
  | ListUnspent (minConf maxConf : Nat)
  | CreateRawTransaction (outs : List Output) (ins : List Balance)
  | NullDataScript (data : List Nat)
  | ReplaceScriptPubKey (raw : String) (script : List Nat)
  | SignRawTransaction (raw : String) (mode : String)
  | DecodeRawTransactionAsObject (raw : String)
  | SendRawTransaction (raw : String)
  | WalletLock
  deriving DecidableEq

/-- The ways `main` ends, each named after the line it prints before `return`. -/
inductive Exit where
  /-- Line 155, "Can't open file". -/
  | openFailed
  /-- Line 164, "Error decoding config file". -/
  | configFailed
  /-- Line 174, "Error reading input". -/
  | inputFailed
  /-- Line 184, "session creation failed". -/
  | sessionFailed
  /-- Line 205, "ListReceivedByAddress() failed". -/
  | receivedFailed
  /-- Line 219, "can't send from address". -/
  | cannotSend
  /-- Line 229, "ListUnspent() failed". -/
  | unspentFailed
  /-- Line 233, "no bitcoins to spent in this wallet!". -/
  | noFunds
  /-- Line 246, "failed to decode script hex". -/
  | scriptHexFailed
  /-- A run-time panic of lines 249-258: an index or a slice bound out of range. -/
  | fault
  /-- Line 280, "not enough bitcoins to spent on transaction!". -/
  | notEnough
  /-- Line 284, "smallest balance exceed limit!". -/
  | limitExceeded
  /-- Line 306, "CreateRawTransaction() failed". -/
  | createFailed
  /-- Line 312, "NullDataScript() failed". -/
  | nullDataFailed
  /-- Line 317, "ReplaceScriptPubKey() failed". -/
  | replaceFailed
  /-- Line 324, "SignRawTransaction()". -/
  | signFailed
  /-- Line 343, "SendRawTransaction()". -/
  | sendFailed
  /-- The end of `main` is reached. -/
  | ok
  deriving DecidableEq

/-- The diagnostics after which `main` goes on. -/
inductive Warning where
  /-- Line 191, "WalletPassphrase()". -/
  | unlockFailed
  /-- Line 328, "SignRawTransaction() not complete". -/
  | signIncomplete
  /-- Line 197, "WalletLock()". -/
  | lockFailed
  deriving DecidableEq

/-- A run: the calls made, in order, the non-fatal diagnostics, and how it ended. -/
structure Run where
  trace : List Call
  warnings : List Warning
  exit : Exit
  deriving DecidableEq

/-! ## Decoding a script -/

/-- The value of one hexadecimal digit, as in Go's `encoding/hex`. -/
def fromHexChar (c : Char) : Option Nat :=
  let n := c.toNat
  if 48 ≤ n ∧ n ≤ 57 then some (n - 48)
  else if 97 ≤ n ∧ n ≤ 102 then some (n - 97 + 10)
  else if 65 ≤ n ∧ n ≤ 70 then some (n - 65 + 10)
  else none

/-- Go's `hex.Decode` on the characters of the string: two digits per byte; an
invalid digit or an odd length is an error. -/
def hexDecode : List Char → Option (List Nat)
  | [] => some []
  | [_] => none
  | a :: b :: rest =>
    match fromHexChar a, fromHexChar b with
    | some x, some y =>
      match hexDecode rest with
      | some bs => some ((x * 16 + y) :: bs)
      | none => none
    | _, _ => none

/-- Go's `hex.DecodeString`. -/
def DecodeString (s : String) : Option (List Nat) :=
  hexDecode s.data

/-- What lines 244-270 make of one output. -/
inductive Shape where
  /-- `hex.DecodeString` returns an error: `main` returns. -/
  | hexError
  /-- An index or slice expression is out of range: `main` panics. -/
  | fault
  /-- The script does not start with 0x76 0xa9 0x14: `continue`. -/
  | skip
  /-- The recomputed address. -/
  | addr (a : String)
  deriving DecidableEq

/-- Lines 249-259 on the decoded script.  `spare` are the bytes of the backing
array past the script.  The test of line 249 reads `script[0]`, `script[1]` and
`script[2]` from left to right and stops at the first byte that differs; an
index past the length panics.  The slice `script[2:23]` panics when the
backing array has fewer than 23 bytes. -/
def recalcAddress (env : Env) (testNet : Bool) (script spare : List Nat) : Shape :=
  match script with
  | [] => .fault -- script[0]
  | b0 :: t0 =>
    if b0 ≠ 0x76 then .skip
    else match t0 with
      | [] => .fault -- script[1]
      | b1 :: t1 =>
        if b1 ≠ 0xa9 then .skip
        else match t1 with
          | [] => .fault -- script[2]
          | b2 :: t2 =>
            if b2 ≠ 0x14 then .skip
            else
              let version : Nat := if testNet then 111 else 0
              let backing := t2 ++ spare
              if backing.length < 20 then .fault -- script[2:23]
              else
                let hash := version :: backing.take 20
                let cs := env.Hash256 hash
                .addr (env.Base58Encode (hash ++ cs.take 4))

/-- Lines 244-259 for one unspent output. -/
def classify (env : Env) (testNet : Bool) (u : Unspent) : Shape :=
  match DecodeString u.ScriptPubKey with
  | none => .hexError
  | some script => recalcAddress env testNet script (env.spare u.ScriptPubKey)

/-! ## The selection loop -/

/-- The variables of lines 236-241. -/
structure Sel where
  txid : String
  vout : Int
  balance : ℚ
  lastAmount : ℚ
  deriving DecidableEq

/-- The initial values of lines 236-241. -/
def Sel.init : Sel :=
  { txid := "", vout := -1, balance := 0, lastAmount := 999999 }

/-- Lines 272-277. -/
def update (cfg : Config) (s : Sel) (u : Unspent) : Sel :=
  if u.Amount > 2 * cfg.Fee ∧ (s.vout < 0 ∨ u.Amount < s.lastAmount) then
    { lastAmount := u.Amount, vout := u.Output.Vout, txid := u.Output.Id, balance := u.Amount }
  else s

/-- How the loop of lines 242-278 ends. -/
inductive Loop where
  | hexError
  | fault
  | done (s : Sel)
  deriving DecidableEq

/-- The loop of lines 242-278. -/
def selectLoop (env : Env) (cfg : Config) : List Unspent → Sel → Loop
  | [], s => .done s
  | u :: rest, s =>
    match classify env cfg.TestNet u with
    | .hexError => .hexError
    | .fault => .fault
    | .skip => selectLoop env cfg rest s
    | .addr a =>
      if a ≠ cfg.AnchorKey then selectLoop env cfg rest s
      else selectLoop env cfg rest (update cfg s u)

/-- Lines 232-282: the emptiness check, the loop and the `vout < 0` check. -/
def selectInput (env : Env) (cfg : Config) (unspent : List Unspent) : Except Exit Sel :=
  if unspent.length = 0 then .error .noFunds
  else
    match selectLoop env cfg unspent Sel.init with
    | .hexError => .error .scriptHexFailed
    | .fault => .error .fault
    | .done s => if s.vout < 0 then .error .notEnough else .ok s

/-! ## The pipeline -/

/-- The constant of lines 115-117. -/
def VERBOSE : Bool := true

/-- The run that ends at once with the given exit. -/
def Run.stop (e : Exit) : Run :=
  { trace := [], warnings := [], exit := e }

/-- The run `r` preceded by the call `c`. -/
def Run.called (c : Call) (r : Run) : Run :=
  { r with trace := c :: r.trace }

/-- The run `r` preceded by the diagnostic `w`. -/
def Run.warned (w : Warning) (r : Run) : Run :=
  { r with warnings := w :: r.warnings }

/-- The bytes of a Go string, `[]byte(s)`: its UTF-8 encoding. -/
def bytes (s : String) : List Nat :=
  (s.data.map fun c => (String.utf8EncodeChar c).map UInt8.toNat).flatten

/-- Lines 143-152: the name of the injection file. -/
def fileName (args : List String) : String :=
  match args with
  | [] => "inject.json"
  | a :: _ => a

/-- Lines 143-178: open and decode the file, read the passphrase if it is empty. -/
def loadConfig (host : Host) : Except Exit Config :=
  match host.file (fileName host.args) with
  | none => .error .openFailed
  | some none => .error .configFailed
  | some (some config) =>
    if config.Passphrase.length = 0 then
      match host.stdin with
      | none => .error .inputFailed
      | some line => .ok { config with Passphrase := line }
    else .ok config

/-- Lines 340-345. -/
def send (node : Node) (raw : String) : Run :=
  (if node.SendRawTransaction raw then Run.stop .sendFailed
   else Run.stop .ok).called (.SendRawTransaction raw)

/-- Lines 321-345. -/
def sign (node : Node) (raw : String) : Run :=
  (match node.SignRawTransaction raw "ALL" with
   | none => Run.stop .signFailed
   | some (signed, complete) =>
     let rest :=
       if VERBOSE then (send node signed).called (.DecodeRawTransactionAsObject signed)
       else send node signed
     if !complete then rest.warned .signIncomplete else rest).called
    (.SignRawTransaction raw "ALL")

/-- Lines 292-345: build the transaction, put the data script in, sign and send. -/
def build (env : Env) (node : Node) (cfg : Config) (s : Sel) : Run :=
  let outs : List Output := [{ Id := s.txid, Vout := s.vout }]
  let ins : List Balance := [{ Address := cfg.AnchorKey, Amount := subFloat64 s.balance cfg.Fee }]
  (match node.CreateRawTransaction outs ins with
   | none => Run.stop .createFailed
   | some raw =>
     (match env.NullDataScript (bytes cfg.Data) with
      | none => Run.stop .nullDataFailed
      | some script =>
        (match env.ReplaceScriptPubKey raw script with
         | none => Run.stop .replaceFailed
         | some replaced => sign node replaced).called
          (.ReplaceScriptPubKey raw script)).called
       (.NullDataScript (bytes cfg.Data))).called
    (.CreateRawTransaction outs ins)

/-- Lines 232-345: select the input, check the limit, build. -/
def spend (env : Env) (node : Node) (cfg : Config) (unspent : List Unspent) : Run :=
  match selectInput env cfg unspent with
  | .error e => Run.stop e
  | .ok s => if s.balance > cfg.Limit then Run.stop .limitExceeded else build env node cfg s

/-- Lines 203-345, the part of `main` after the deferred lock is registered. -/
def body (env : Env) (node : Node) (cfg : Config) : Run :=
  (match node.ListReceivedByAddress 6 false with
   | none => Run.stop .receivedFailed
   | some rcv =>
     if cfg.AnchorKey ∈ rcv then
       (match node.ListUnspent 6 999999 with
        | none => Run.stop .unspentFailed
        | some unspent => spend env node cfg unspent).called (.ListUnspent 6 999999)
     else Run.stop .cannotSend).called
    (.ListReceivedByAddress 6 false)

/-- Lines 189-345: unlock the wallet (an error is printed and the run goes on),
run the body, and lock the wallet in the deferred function, which Go runs when
`main` returns and also when it panics. -/
def withWallet (env : Env) (node : Node) (cfg : Config) : Run :=
  let r := body env node cfg
  let locked : Run :=
    { trace := r.trace ++ [.WalletLock],
      warnings := r.warnings ++ (if node.WalletLock then [.lockFailed] else []),
      exit := r.exit }
  (if node.WalletPassphrase cfg.Passphrase 600 then locked.warned .unlockFailed
   else locked).called (.WalletPassphrase cfg.Passphrase 600)

/-- The program, lines 138-346. -/
def main (host : Host) (env : Env) (node : Node) : Run :=
  match loadConfig host with
  | .error e => Run.stop e
  | .ok cfg =>
    (if node.NewSession cfg.Server cfg.User cfg.Password then Run.stop .sessionFailed
     else withWallet env node cfg).called (.NewSession cfg.Server cfg.User cfg.Password)

/-! ## Vocabulary of the statements -/

/-- The script of `u` decodes to the sender address: lines 244-267 reach line 272. -/
def owns (env : Env) (cfg : Config) (u : Unspent) : Prop :=
  classify env cfg.TestNet u = .addr cfg.AnchorKey

instance (env : Env) (cfg : Config) (u : Unspent) : Decidable (owns env cfg u) :=
  inferInstanceAs (Decidable (classify env cfg.TestNet u = .addr cfg.AnchorKey))

/-- The output `u` qualifies: it decodes to the sender address and its amount is
strictly greater than twice the fee. -/
def qualifies (env : Env) (cfg : Config) (u : Unspent) : Prop :=
  owns env cfg u ∧ 2 * cfg.Fee < u.Amount

instance (env : Env) (cfg : Config) (u : Unspent) : Decidable (qualifies env cfg u) :=
  inferInstanceAs (Decidable (owns env cfg u ∧ 2 * cfg.Fee < u.Amount))

/-- The values the loop variables take when `u` is picked (lines 273-276). -/
def pick (u : Unspent) : Sel :=
  { txid := u.Output.Id, vout := u.Output.Vout, balance := u.Amount, lastAmount := u.Amount }

/-- A script that is valid hex and decodes to at least 23 bytes, so that every
index and slice expression of lines 249-256 is in range. -/
def WellFormed (u : Unspent) : Prop :=
  ∃ script, DecodeString u.ScriptPubKey = some script ∧ 23 ≤ script.length

/-- The three bytes a script must start with (line 249). -/
def p2pkhHead : List Nat := [0x76, 0xa9, 0x14]

/-- The version byte of lines 251-255. -/
def versionByte (testNet : Bool) : Nat := if testNet then 111 else 0

/-- The 21 bytes that are hashed: the version byte and bytes 3 to 22 of the
backing array. -/
def versionedHash (testNet : Bool) (script spare : List Nat) : List Nat :=
  versionByte testNet :: ((script ++ spare).drop 3).take 20

/-- The run gets to the selection with configuration `cfg` and the list `unspent`:
the configuration is loaded, the session is created, the sender address is among
the received addresses and `ListUnspent` answers `unspent`. -/
def Reaches (host : Host) (node : Node) (cfg : Config) (unspent : List Unspent) : Prop :=
  loadConfig host = .ok cfg ∧ node.NewSession cfg.Server cfg.User cfg.Password = false ∧
    (∃ rcv, node.ListReceivedByAddress 6 false = some rcv ∧ cfg.AnchorKey ∈ rcv) ∧
    node.ListUnspent 6 999999 = some unspent

/-- The run gets to the build step with configuration `cfg` and the pick `s`: the
selection picks `s` and its amount is within the limit. -/
def Builds (host : Host) (env : Env) (node : Node) (cfg : Config) (s : Sel) : Prop :=
  ∃ unspent, Reaches host node cfg unspent ∧ selectInput env cfg unspent = .ok s ∧
    s.balance ≤ cfg.Limit

/-- The run gets to the signing step with the transaction `replaced`. -/
def Signs (host : Host) (env : Env) (node : Node) (replaced : String) : Prop :=
  ∃ cfg s raw script, Builds host env node cfg s ∧
    node.CreateRawTransaction [{ Id := s.txid, Vout := s.vout }]
      [{ Address := cfg.AnchorKey, Amount := subFloat64 s.balance cfg.Fee }] = some raw ∧
    env.NullDataScript (bytes cfg.Data) = some script ∧
    env.ReplaceScriptPubKey raw script = some replaced

/-! ## A concrete instance

A small environment, configuration and wallet at which the statements below are
evaluated.  The hash and the encoding are simple stand-ins for those of package
`util`; the statements themselves hold for every environment. -/

/-- A stand-in for package `util`: the hash repeats the sum of the bytes, the
encoding maps each byte to a printable character. -/
def demoEnv : Env where
  Hash256 := fun data => List.replicate 32 (data.sum % 256)
  Hash256_length := fun _ => List.length_replicate _ _
  Base58Encode := fun data => String.mk (data.map fun n => Char.ofNat (n % 64 + 48))
  NullDataScript := fun data => some (0x6a :: data.length :: data)
  ReplaceScriptPubKey := fun raw _ => some (raw ++ "+data")
  spare := fun _ => []

/-- A standard pay-to-address script for the hash 00 01 .. 13. -/
def scriptA : String := "76a914000102030405060708090a0b0c0d0e0f1011121388ac"

/-- A standard pay-to-address script for another hash. -/
def scriptB : String := "76a914200102030405060708090a0b0c0d0e0f1011121388ac"

/-- The address `demoEnv` gives to the hash of `scriptA` on the test network. -/
def addrA : String := "_0123456789:;<=>?@ABC]]]]"

/-- The address `demoEnv` gives to the hash of `scriptB` on the test network. -/
def addrB : String := "_P123456789:;<=>?@ABC===="

/-- A configuration whose sender address is `addrA`. -/
def demoCfg : Config :=
  { Server := "http://localhost:18332", User := "u", Password := "p", AnchorKey := addrA,
    Receiver := "", Fee := 1 / 1000, Limit := 1 / 10,
    Data := "[[TrustAnchor:Domain:example.org]]", Passphrase := "secret", TestNet := true }

/-- An output of 0.5 of the sender. -/
def demoA1 : Unspent :=
  { Output := { Id := "t1", Vout := 0 }, ScriptPubKey := scriptA, Amount := 1 / 2 }

/-- An output of 0.05 of the sender. -/
def demoA2 : Unspent :=
  { Output := { Id := "t2", Vout := 1 }, ScriptPubKey := scriptA, Amount := 1 / 20 }

/-- An output of 0.02 of another address. -/
def demoB : Unspent :=
  { Output := { Id := "t3", Vout := 0 }, ScriptPubKey := scriptB, Amount := 1 / 50 }

/-- A third output of the sender, with the amount of `demoA2`. -/
def demoA3 : Unspent :=
  { Output := { Id := "t4", Vout := 2 }, ScriptPubKey := scriptA, Amount := 1 / 20 }

/-- An output of the sender with a negative output index. -/
def demoNeg : Unspent :=
  { Output := { Id := "t5", Vout := -1 }, ScriptPubKey := scriptA, Amount := 1 }

/-- An output whose script is not hexadecimal. -/
def demoNoHex : Unspent :=
  { Output := { Id := "t8", Vout := 0 }, ScriptPubKey := "zz", Amount := 1 }

/-- Three outputs: 0.5 and 0.05 of the sender, 0.02 of another address. -/
def demoUnspent : List Unspent := [demoA1, demoA2, demoB]

/-- A host whose injection file decodes to `demoCfg`. -/
def demoHost : Host :=
  { args := [], file := fun _ => some (some demoCfg), stdin := none }

/-- A node on which every call succeeds and the signature is complete. -/
def demoNode : Node :=
  { NewSession := fun _ _ _ => false,
    WalletPassphrase := fun _ _ => false,
    ListReceivedByAddress := fun _ _ => some [addrA],
    ListUnspent := fun _ _ => some demoUnspent,
    CreateRawTransaction := fun _ _ => some "raw",
    SignRawTransaction := fun raw _ => some (raw ++ "+sig", true),
    SendRawTransaction := fun _ => false,
    WalletLock := false }

/-- A host whose injection file cannot be opened. -/
def demoHostNoFile : Host :=
  { args := [], file := fun _ => none, stdin := none }

/-- The node `demoNode`, except that session creation fails. -/
def demoNodeNoSession : Node :=
  { demoNode with NewSession := fun _ _ _ => true }

/-- The node `demoNode`, except that the wallet passphrase is refused. -/
def demoNodeLocked : Node :=
  { demoNode with WalletPassphrase := fun _ _ => true }

/-- The node `demoNode`, except that the signature is reported incomplete. -/
def demoNodeIncomplete : Node :=
  { demoNode with SignRawTransaction := fun raw _ => some (raw ++ "+sig", false) }

/-- The node `demoNode`, except that the only unspent output is 0.5 of the sender. -/
def demoNodeLarge : Node :=
  { demoNode with ListUnspent := fun _ _ => some [demoA1] }

/-- The configuration `demoCfg` with the fee and the limit that the JSON decoder
makes of 0.001 and 0.1: the nearest `float64` values. -/
def demoCfg64 : Config :=
  { demoCfg with Fee := 1152921504606847 / 2 ^ 60, Limit := 3602879701896397 / 2 ^ 55 }

/-- An output of the sender whose amount is the `float64` nearest to 0.05. -/
def demoU64 : Unspent :=
  { Output := { Id := "t2", Vout := 1 }, ScriptPubKey := scriptA,
    Amount := 3602879701896397 / 2 ^ 56 }

/-- A host whose injection file decodes to `demoCfg64`. -/
def demoHost64 : Host :=
  { args := [], file := fun _ => some (some demoCfg64), stdin := none }

/-- The node `demoNode`, except that the only unspent output is `demoU64`. -/
def demoNode64 : Node :=
  { demoNode with ListUnspent := fun _ _ => some [demoU64] }

/-! ## The selection loop: lemmas -/

theorem selectLoop_owned (env : Env) (cfg : Config) (u : Unspent) (rest : List Unspent)
    (s : Sel) (h : owns env cfg u) :
    selectLoop env cfg (u :: rest) s = selectLoop env cfg rest (update cfg s u) := by
  unfold owns at h
  simp [selectLoop, h]

theorem selectLoop_cases (env : Env) (cfg : Config) (u : Unspent) (rest : List Unspent)
    (s : Sel) :
    (¬ owns env cfg u ∧
        (selectLoop env cfg (u :: rest) s = selectLoop env cfg rest s ∨
          selectLoop env cfg (u :: rest) s = .hexError ∨
          selectLoop env cfg (u :: rest) s = .fault)) ∨
      (owns env cfg u ∧
        selectLoop env cfg (u :: rest) s = selectLoop env cfg rest (update cfg s u)) := by
  by_cases h : owns env cfg u
  · exact Or.inr ⟨h, selectLoop_owned env cfg u rest s h⟩
  · refine Or.inl ⟨h, ?_⟩
    unfold owns at h
    cases hc : classify env cfg.TestNet u with
    | hexError => simp [selectLoop, hc]
    | fault => simp [selectLoop, hc]
    | skip => simp [selectLoop, hc]
    | addr a =>
      have hne : a ≠ cfg.AnchorKey := by
        intro ha
        exact h (by rw [hc, ha])
      simp [selectLoop, hc, hne]

theorem update_eq_pick (cfg : Config) (s : Sel) (u : Unspent)
    (h1 : 2 * cfg.Fee < u.Amount) (h2 : s.vout < 0 ∨ u.Amount < s.lastAmount) :
    update cfg s u = pick u := by
  simp [update, pick, h1, h2]

theorem update_eq_self (cfg : Config) (s : Sel) (u : Unspent)
    (h : ¬ (2 * cfg.Fee < u.Amount ∧ (s.vout < 0 ∨ u.Amount < s.lastAmount))) :
    update cfg s u = s := by
  simp only [update, gt_iff_lt]
  rw [if_neg h]

/-- The loop, when it runs to its end: either nothing was picked and no qualifying
output could have replaced the initial state, or the state is that of an output
that qualifies, is strictly smaller than every qualifying output before it and
at most every qualifying output after it. -/
theorem selectLoop_done (env : Env) (cfg : Config) :
    ∀ (us : List Unspent) (s r : Sel), (∀ u ∈ us, 0 ≤ u.Output.Vout) →
      selectLoop env cfg us s = .done r →
      (r = s ∧ ∀ u ∈ us, qualifies env cfg u → 0 ≤ s.vout ∧ s.lastAmount ≤ u.Amount) ∨
      (∃ pre u post, us = pre ++ u :: post ∧ qualifies env cfg u ∧ r = pick u ∧
        (s.vout < 0 ∨ u.Amount < s.lastAmount) ∧
        (∀ v ∈ pre, qualifies env cfg v → u.Amount < v.Amount) ∧
        (∀ v ∈ post, qualifies env cfg v → u.Amount ≤ v.Amount)) := by
  intro us
  induction us with
  | nil =>
    intro s r _ h
    left
    simp [selectLoop] at h
    exact ⟨h.symm, by simp⟩
  | cons u rest ih =>
    intro s r hv h
    have hvr : ∀ w ∈ rest, 0 ≤ w.Output.Vout := fun w hw => hv w (List.mem_cons_of_mem _ hw)
    have hvu : 0 ≤ u.Output.Vout := hv u (List.mem_cons_self _ _)
    rcases selectLoop_cases env cfg u rest s with ⟨hno, hstep | hstep | hstep⟩ | ⟨hown, hstep⟩
    · rw [hstep] at h
      rcases ih s r hvr h with ⟨hr, hall⟩ | ⟨pre, w, post, hsplit, hq, hr, himp, hpre, hpost⟩
      · left
        refine ⟨hr, ?_⟩
        intro v hvmem hqv
        rcases List.mem_cons.mp hvmem with rfl | hmem
        · exact absurd hqv.1 hno
        · exact hall v hmem hqv
      · right
        refine ⟨u :: pre, w, post, by simp [hsplit], hq, hr, himp, ?_, hpost⟩
        intro v hvmem hqv
        rcases List.mem_cons.mp hvmem with rfl | hmem
        · exact absurd hqv.1 hno
        · exact hpre v hmem hqv
    · rw [hstep] at h; cases h
    · rw [hstep] at h; cases h
    · rw [hstep] at h
      by_cases hc : 2 * cfg.Fee < u.Amount ∧ (s.vout < 0 ∨ u.Amount < s.lastAmount)
      · rw [update_eq_pick cfg s u hc.1 hc.2] at h
        rcases ih (pick u) r hvr h with ⟨hr, hall⟩ | ⟨pre, w, post, hsplit, hq, hr, himp, hpre, hpost⟩
        · right
          refine ⟨[], u, rest, by simp, ⟨hown, hc.1⟩, hr, hc.2, by simp, ?_⟩
          intro v hmem hqv
          exact (hall v hmem hqv).2
        · right
          have hlt : w.Amount < u.Amount := by
            rcases himp with hneg | hlt
            · exact absurd hvu (not_le.mpr hneg)
            · exact hlt
          refine ⟨u :: pre, w, post, by simp [hsplit], hq, hr, ?_, ?_, hpost⟩
          · rcases hc.2 with hneg | hlast
            · exact Or.inl hneg
            · exact Or.inr (lt_trans hlt hlast)
          · intro v hvmem hqv
            rcases List.mem_cons.mp hvmem with rfl | hmem
            · exact hlt
            · exact hpre v hmem hqv
      · rw [update_eq_self cfg s u hc] at h
        have hu : qualifies env cfg u → 0 ≤ s.vout ∧ s.lastAmount ≤ u.Amount := by
          intro hq
          have hnot : ¬ (s.vout < 0 ∨ u.Amount < s.lastAmount) := fun hd => hc ⟨hq.2, hd⟩
          push_neg at hnot
          exact hnot
        rcases ih s r hvr h with ⟨hr, hall⟩ | ⟨pre, w, post, hsplit, hq, hr, himp, hpre, hpost⟩
        · left
          refine ⟨hr, ?_⟩
          intro v hvmem hqv
          rcases List.mem_cons.mp hvmem with rfl | hmem
          · exact hu hqv
          · exact hall v hmem hqv
        · right
          refine ⟨u :: pre, w, post, by simp [hsplit], hq, hr, himp, ?_, hpost⟩
          intro v hvmem hqv
          rcases List.mem_cons.mp hvmem with rfl | hmem
          · have := hu hqv
            rcases himp with hneg | hlt
            · exact absurd this.1 (not_le.mpr hneg)
            · exact lt_of_lt_of_le hlt this.2
          · exact hpre v hmem hqv

theorem selectLoop_keeps (env : Env) (cfg : Config) (post : List Unspent) (s r : Sel)
    (hv : ∀ v ∈ post, 0 ≤ v.Output.Vout) (hs : 0 ≤ s.vout)
    (hall : ∀ v ∈ post, qualifies env cfg v → s.lastAmount ≤ v.Amount)
    (h : selectLoop env cfg post s = .done r) : r = s := by
  rcases selectLoop_done env cfg post s r hv h with ⟨hr, _⟩ | ⟨pre, w, rest, hsplit, hq, _, himp, _, _⟩
  · exact hr
  · exfalso
    have hmem : w ∈ post := by rw [hsplit]; simp
    rcases himp with hneg | hlt
    · exact absurd hs (not_le.mpr hneg)
    · exact absurd (hall w hmem hq) (not_le.mpr hlt)

/-- The loop picks the first of the smallest qualifying outputs. -/
theorem selectLoop_first (env : Env) (cfg : Config) (u : Unspent) (post : List Unspent) :
    ∀ (pre : List Unspent) (s r : Sel), (∀ v ∈ pre ++ u :: post, 0 ≤ v.Output.Vout) →
      qualifies env cfg u → (s.vout < 0 ∨ u.Amount < s.lastAmount) →
      (∀ v ∈ pre, qualifies env cfg v → u.Amount < v.Amount) →
      (∀ v ∈ post, qualifies env cfg v → u.Amount ≤ v.Amount) →
      selectLoop env cfg (pre ++ u :: post) s = .done r → r = pick u := by
  intro pre
  induction pre with
  | nil =>
    intro s r hv hq himp _ hpost h
    simp only [List.nil_append] at h hv
    rw [selectLoop_owned env cfg u post s hq.1, update_eq_pick cfg s u hq.2 himp] at h
    exact selectLoop_keeps env cfg post (pick u) r
      (fun v hm => hv v (List.mem_cons_of_mem _ hm)) (hv u (List.mem_cons_self _ _)) hpost h
  | cons v pre ih =>
    intro s r hv hq himp hpre hpost h
    simp only [List.cons_append] at h hv
    have hvr : ∀ w ∈ pre ++ u :: post, 0 ≤ w.Output.Vout :=
      fun w hw => hv w (List.mem_cons_of_mem _ hw)
    have hpre2 : ∀ w ∈ pre, qualifies env cfg w → u.Amount < w.Amount :=
      fun w hw => hpre w (List.mem_cons_of_mem _ hw)
    rcases selectLoop_cases env cfg v (pre ++ u :: post) s with
      ⟨_, hstep | hstep | hstep⟩ | ⟨hown, hstep⟩
    · rw [hstep] at h
      exact ih s r hvr hq himp hpre2 hpost h
    · rw [hstep] at h; cases h
    · rw [hstep] at h; cases h
    · rw [hstep] at h
      by_cases hc : 2 * cfg.Fee < v.Amount ∧ (s.vout < 0 ∨ v.Amount < s.lastAmount)
      · rw [update_eq_pick cfg s v hc.1 hc.2] at h
        have hlt : u.Amount < v.Amount := hpre v (List.mem_cons_self _ _) ⟨hown, hc.1⟩
        exact ih (pick v) r hvr hq (Or.inr hlt) hpre2 hpost h
      · rw [update_eq_self cfg s v hc] at h
        exact ih s r hvr hq himp hpre2 hpost h

/-! ## Decoding a script: lemmas -/

theorem recalcAddress_addr (env : Env) (testNet : Bool) (script spare : List Nat) (a : String) :
    recalcAddress env testNet script spare = .addr a ↔
      script.take 3 = p2pkhHead ∧ 23 ≤ (script ++ spare).length ∧
        a = env.Base58Encode (versionedHash testNet script spare ++
          (env.Hash256 (versionedHash testNet script spare)).take 4) := by
  rcases script with _ | ⟨b0, _ | ⟨b1, _ | ⟨b2, t⟩⟩⟩
  · simp [recalcAddress, p2pkhHead]
  · by_cases h0 : b0 = 0x76 <;> simp [recalcAddress, p2pkhHead, h0]
  · by_cases h0 : b0 = 0x76 <;> by_cases h1 : b1 = 0xa9 <;>
      simp [recalcAddress, p2pkhHead, h0, h1]
  · by_cases h0 : b0 = 0x76 <;> by_cases h1 : b1 = 0xa9 <;> by_cases h2 : b2 = 0x14 <;>
      simp [recalcAddress, p2pkhHead, h0, h1, h2, versionedHash, versionByte]
    by_cases hl : t.length + spare.length < 20
    · simp [hl]
    · simp only [hl, if_false, Shape.addr.injEq]
      constructor
      · intro h
        exact ⟨by omega, h.symm⟩
      · intro h
        exact h.2.symm

theorem recalcAddress_skip (env : Env) (testNet : Bool) (script spare : List Nat)
    (hne : script.take 3 ≠ p2pkhHead.take script.length) :
    recalcAddress env testNet script spare = .skip := by
  rcases script with _ | ⟨b0, _ | ⟨b1, _ | ⟨b2, t⟩⟩⟩
  · simp at hne
  · by_cases h0 : b0 = 0x76 <;> simp [recalcAddress, p2pkhHead, h0] at hne ⊢
  · by_cases h0 : b0 = 0x76 <;> by_cases h1 : b1 = 0xa9 <;>
      simp [recalcAddress, p2pkhHead, h0, h1] at hne ⊢
  · by_cases h0 : b0 = 0x76 <;> by_cases h1 : b1 = 0xa9 <;> by_cases h2 : b2 = 0x14 <;>
      simp [recalcAddress, p2pkhHead, h0, h1, h2] at hne ⊢

theorem recalcAddress_wellFormed (env : Env) (testNet : Bool) (script spare : List Nat)
    (hlen : 23 ≤ script.length) :
    recalcAddress env testNet script spare = .skip ∨
      ∃ a, recalcAddress env testNet script spare = .addr a := by
  by_cases hh : script.take 3 = p2pkhHead
  · right
    refine ⟨_, (recalcAddress_addr env testNet script spare _).mpr ⟨hh, ?_, rfl⟩⟩
    simp only [List.length_append]
    omega
  · left
    refine recalcAddress_skip env testNet script spare ?_
    have hhead : p2pkhHead.take script.length = p2pkhHead :=
      List.take_of_length_le (by simp only [p2pkhHead, List.length_cons, List.length_nil]; omega)
    rw [hhead]
    exact hh

theorem versionedHash_of_length (testNet : Bool) (script spare : List Nat)
    (hlen : 23 ≤ script.length) :
    versionedHash testNet script spare = versionByte testNet :: (script.drop 3).take 20 := by
  unfold versionedHash
  rw [List.drop_append_of_le_length (by omega), List.take_append_of_le_length]
  simp only [List.length_drop]
  omega

/-- An output decodes to the sender address exactly when its script is valid hex,
starts with 0x76 0xa9 0x14, has 23 bytes in its backing array, and the sender
address is Base58Encode of the versioned hash followed by the first four bytes
of its Hash256. -/
theorem owns_iff (env : Env) (cfg : Config) (u : Unspent) :
    owns env cfg u ↔
      ∃ script, DecodeString u.ScriptPubKey = some script ∧ script.take 3 = p2pkhHead ∧
        23 ≤ (script ++ env.spare u.ScriptPubKey).length ∧
        cfg.AnchorKey = env.Base58Encode
          (versionedHash cfg.TestNet script (env.spare u.ScriptPubKey) ++
            (env.Hash256 (versionedHash cfg.TestNet script (env.spare u.ScriptPubKey))).take 4) := by
  unfold owns classify
  cases hd : DecodeString u.ScriptPubKey with
  | none => simp
  | some script =>
    simp only [Option.some.injEq, exists_eq_left']
    exact recalcAddress_addr env cfg.TestNet script _ _

theorem classify_wellFormed (env : Env) (testNet : Bool) (u : Unspent) (h : WellFormed u) :
    classify env testNet u = .skip ∨ ∃ a, classify env testNet u = .addr a := by
  obtain ⟨script, hd, hlen⟩ := h
  unfold classify
  rw [hd]
  exact recalcAddress_wellFormed env testNet script _ hlen

/-- On well-formed scripts the loop runs to its end. -/
theorem selectLoop_total (env : Env) (cfg : Config) :
    ∀ (us : List Unspent) (s : Sel), (∀ u ∈ us, WellFormed u) →
      ∃ r, selectLoop env cfg us s = .done r := by
  intro us
  induction us with
  | nil => intro s _; exact ⟨s, rfl⟩
  | cons u rest ih =>
    intro s hw
    have hwr : ∀ w ∈ rest, WellFormed w := fun w hm => hw w (List.mem_cons_of_mem _ hm)
    rcases classify_wellFormed env cfg.TestNet u (hw u (List.mem_cons_self _ _)) with hc | ⟨a, hc⟩
    · simp only [selectLoop, hc]
      exact ih s hwr
    · simp only [selectLoop, hc]
      split
      · exact ih s hwr
      · exact ih _ hwr

/-- Whatever the output indices, the state at the end of the loop is the initial one
or that of a qualifying output of the list. -/
theorem selectLoop_picked (env : Env) (cfg : Config) :
    ∀ (us : List Unspent) (s r : Sel), selectLoop env cfg us s = .done r →
      r = s ∨ ∃ u ∈ us, qualifies env cfg u ∧ r = pick u := by
  intro us
  induction us with
  | nil =>
    intro s r h
    simp [selectLoop] at h
    exact Or.inl h.symm
  | cons u rest ih =>
    intro s r h
    rcases selectLoop_cases env cfg u rest s with ⟨_, hstep | hstep | hstep⟩ | ⟨hown, hstep⟩
    · rw [hstep] at h
      rcases ih s r h with hr | ⟨w, hm, hq, hr⟩
      · exact Or.inl hr
      · exact Or.inr ⟨w, List.mem_cons_of_mem _ hm, hq, hr⟩
    · rw [hstep] at h; cases h
    · rw [hstep] at h; cases h
    · rw [hstep] at h
      rcases ih _ r h with hr | ⟨w, hm, hq, hr⟩
      · by_cases hc : 2 * cfg.Fee < u.Amount ∧ (s.vout < 0 ∨ u.Amount < s.lastAmount)
        · rw [update_eq_pick cfg s u hc.1 hc.2] at hr
          exact Or.inr ⟨u, List.mem_cons_self _ _, ⟨hown, hc.1⟩, hr⟩
        · rw [update_eq_self cfg s u hc] at hr
          exact Or.inl hr
      · exact Or.inr ⟨w, List.mem_cons_of_mem _ hm, hq, hr⟩

theorem selectInput_ok_iff (env : Env) (cfg : Config) (unspent : List Unspent) (s : Sel) :
    selectInput env cfg unspent = .ok s ↔
      unspent ≠ [] ∧ selectLoop env cfg unspent Sel.init = .done s ∧ 0 ≤ s.vout := by
  unfold selectInput
  by_cases he : unspent = []
  · simp [he]
  · have hl : ¬ unspent.length = 0 := by simpa using he
    simp only [hl, if_false, ne_eq, he, not_false_eq_true, true_and]
    cases hloop : selectLoop env cfg unspent Sel.init with
    | hexError => simp
    | fault => simp
    | done r =>
      by_cases hv : r.vout < 0
      · simp only [hv, if_true, Loop.done.injEq]
        constructor
        · intro h; cases h
        · rintro ⟨rfl, h⟩
          exact absurd h (not_le.mpr hv)
      · simp only [hv, if_false, Except.ok.injEq, Loop.done.injEq]
        constructor
        · rintro rfl
          exact ⟨rfl, not_lt.mp hv⟩
        · rintro ⟨h, _⟩
          exact h

/-! ## The concrete instance: lemmas -/

theorem decode_scriptA :
    DecodeString scriptA =
      some [0x76, 0xa9, 0x14, 0, 1, 2, 3, 4, 5, 6, 7, 8, 9, 10, 11, 12, 13, 14, 15, 16, 17,
        18, 19, 0x88, 0xac] := by
  rfl

theorem decode_scriptB :
    DecodeString scriptB =
      some [0x76, 0xa9, 0x14, 32, 1, 2, 3, 4, 5, 6, 7, 8, 9, 10, 11, 12, 13, 14, 15, 16, 17,
        18, 19, 0x88, 0xac] := by
  rfl

theorem classify_scriptA (u : Unspent) (h : u.ScriptPubKey = scriptA) :
    classify demoEnv true u = .addr addrA := by
  unfold classify
  rw [h, decode_scriptA]
  rfl

theorem classify_scriptB (u : Unspent) (h : u.ScriptPubKey = scriptB) :
    classify demoEnv true u = .addr addrB := by
  unfold classify
  rw [h, decode_scriptB]
  rfl

theorem wellFormed_scriptA (u : Unspent) (h : u.ScriptPubKey = scriptA) : WellFormed u := by
  refine ⟨_, by rw [h]; exact decode_scriptA, ?_⟩
  decide

theorem wellFormed_scriptB (u : Unspent) (h : u.ScriptPubKey = scriptB) : WellFormed u := by
  refine ⟨_, by rw [h]; exact decode_scriptB, ?_⟩
  decide

theorem demoUnspent_vout : ∀ u ∈ demoUnspent, 0 ≤ u.Output.Vout := by
  intro u hu
  simp only [demoUnspent, List.mem_cons, List.mem_singleton, List.not_mem_nil, or_false] at hu
  rcases hu with rfl | rfl | rfl <;> decide

theorem demoUnspent_loop :
    selectLoop demoEnv demoCfg demoUnspent Sel.init = .done (pick demoA2) := by
  simp [selectLoop, demoUnspent, demoA1, demoA2, demoB, classify_scriptA, classify_scriptB,
    demoCfg, update, Sel.init, addrA, addrB, pick]
  norm_num

/-! ## The claims on the selection -/

/-- C1: if the selection loop picks an output (it runs to its end with a non-negative
`vout`), on a list whose output indices are non-negative, the picked amount is
strictly greater than twice the fee and at most the amount of every output of the
list that decodes to the sender address and is strictly greater than twice the
fee.  In the scenario of three outputs 0.5 and 0.05 of the sender and 0.02 of
another address, with fee 0.001, the loop ends on the 0.05 output. -/
theorem selection_picks_least_amount_above_twice_fee (env : Env) (cfg : Config) :
    (∀ (unspent : List Unspent) (s : Sel),
      (∀ u ∈ unspent, 0 ≤ u.Output.Vout) →
      selectLoop env cfg unspent Sel.init = .done s → 0 ≤ s.vout →
      2 * cfg.Fee < s.balance ∧
        ∀ u ∈ unspent, owns env cfg u → 2 * cfg.Fee < u.Amount → s.balance ≤ u.Amount) ∧
    (∀ (a1 a2 b : Unspent) (other : String),
      cfg.Fee = 1 / 1000 → a1.Amount = 1 / 2 → a2.Amount = 1 / 20 → b.Amount = 1 / 50 →
      owns env cfg a1 → owns env cfg a2 →
      classify env cfg.TestNet b = .addr other → other ≠ cfg.AnchorKey →
      selectLoop env cfg [a1, a2, b] Sel.init = .done (pick a2) ∧
        (pick a2).balance = 1 / 20 ∧
        (0 ≤ a2.Output.Vout → selectInput env cfg [a1, a2, b] = .ok (pick a2))) := by
  constructor
  · intro unspent s hv hloop hs
    rcases selectLoop_done env cfg unspent Sel.init s hv hloop with
      ⟨hr, _⟩ | ⟨pre, w, post, hsplit, hq, hr, _, hpre, hpost⟩
    · rw [hr] at hs
      exact absurd hs (by decide)
    · rw [hr]
      refine ⟨hq.2, ?_⟩
      intro u hu hown hamt
      rw [hsplit] at hu
      rcases List.mem_append.mp hu with hm | hm
      · exact le_of_lt (hpre u hm ⟨hown, hamt⟩)
      · rcases List.mem_cons.mp hm with rfl | hm2
        · exact le_refl _
        · exact hpost u hm2 ⟨hown, hamt⟩
  · intro a1 a2 b other hfee h1 h2 hb ho1 ho2 hcb hne
    have hloop : selectLoop env cfg [a1, a2, b] Sel.init = .done (pick a2) := by
      rw [selectLoop_owned env cfg a1 _ _ ho1,
        update_eq_pick cfg Sel.init a1 (by rw [hfee, h1]; norm_num) (Or.inl (by decide)),
        selectLoop_owned env cfg a2 _ _ ho2,
        update_eq_pick cfg (pick a1) a2 (by rw [hfee, h2]; norm_num)
          (Or.inr (by simp only [pick]; rw [h1, h2]; norm_num))]
      simp [selectLoop, hcb, hne]
    refine ⟨hloop, by simp only [pick]; exact h2, ?_⟩
    intro hv
    exact (selectInput_ok_iff env cfg _ _).mpr ⟨by simp, hloop, hv⟩

/-- The statement of C1 at the wallet `demoUnspent`: the loop ends on the 0.05 output. -/
theorem selection_picks_least_amount_above_twice_fee_witness :
    ((∀ u ∈ demoUnspent, 0 ≤ u.Output.Vout) ∧
      selectLoop demoEnv demoCfg demoUnspent Sel.init = .done (pick demoA2) ∧
      0 ≤ (pick demoA2).vout ∧
      (2 * demoCfg.Fee < (pick demoA2).balance ∧
        ∀ u ∈ demoUnspent, owns demoEnv demoCfg u → 2 * demoCfg.Fee < u.Amount →
          (pick demoA2).balance ≤ u.Amount)) ∧
    (owns demoEnv demoCfg demoA1 ∧ owns demoEnv demoCfg demoA2 ∧
      classify demoEnv demoCfg.TestNet demoB = .addr addrB ∧ addrB ≠ demoCfg.AnchorKey ∧
      selectLoop demoEnv demoCfg [demoA1, demoA2, demoB] Sel.init = .done (pick demoA2) ∧
      (pick demoA2).balance = 1 / 20 ∧
      (0 ≤ demoA2.Output.Vout →
        selectInput demoEnv demoCfg [demoA1, demoA2, demoB] = .ok (pick demoA2))) :=
  ⟨⟨demoUnspent_vout, demoUnspent_loop, by decide,
    (selection_picks_least_amount_above_twice_fee demoEnv demoCfg).1 demoUnspent
      (pick demoA2) demoUnspent_vout demoUnspent_loop (by decide)⟩,
    classify_scriptA demoA1 rfl, classify_scriptA demoA2 rfl, classify_scriptB demoB rfl,
    by decide,
    (selection_picks_least_amount_above_twice_fee demoEnv demoCfg).2 demoA1 demoA2 demoB addrB
      rfl rfl rfl rfl (classify_scriptA demoA1 rfl) (classify_scriptA demoA2 rfl)
      (classify_scriptB demoB rfl) (by decide)⟩

theorem selectInput_of_done (env : Env) (cfg : Config) (unspent : List Unspent) (r : Sel)
    (hne : unspent ≠ []) (hloop : selectLoop env cfg unspent Sel.init = .done r) :
    selectInput env cfg unspent = if r.vout < 0 then .error .notEnough else .ok r := by
  have hl : ¬ unspent.length = 0 := by simpa using hne
  simp [selectInput, hl, hloop]

/-- C2 as stated fails: the selection has other endings than a pick and the
no-eligible-input failure.  On the empty list it ends with the no-funds failure,
and on a script that is not hexadecimal with the script-decoding failure. -/
theorem selection_ends_otherwise :
    selectInput demoEnv demoCfg [] = .error .noFunds ∧
      selectInput demoEnv demoCfg [demoNoHex] = .error .scriptHexFailed ∧
      ¬ ∀ (env : Env) (cfg : Config) (unspent : List Unspent),
          (∃ s u, selectInput env cfg unspent = .ok s ∧ u ∈ unspent ∧ owns env cfg u ∧
            s = pick u) ∨
          selectInput env cfg unspent = .error .notEnough := by
  have h1 : selectInput demoEnv demoCfg [] = .error .noFunds := by simp [selectInput]
  have h2 : selectInput demoEnv demoCfg [demoNoHex] = .error .scriptHexFailed := by
    have hc : classify demoEnv demoCfg.TestNet demoNoHex = .hexError := by rfl
    simp [selectInput, selectLoop, hc]
  refine ⟨h1, h2, ?_⟩
  intro hall
  rcases hall demoEnv demoCfg [] with ⟨s, u, hs, _⟩ | he
  · rw [h1] at hs; cases hs
  · rw [h1] at he; cases he

/-- C2, amended: every pick is the state of an output of the list whose script is
valid hex, starts with 0x76 0xa9 0x14 and whose recomputed address, Base58Encode
of the version byte, the 20 bytes from index 3 and the first 4 bytes of the
Hash256 of those 21 bytes, equals the sender address; and a selection that
neither picks nor faults ends with the no-funds, the script-decoding or the
no-eligible-input failure. -/
theorem selection_picks_sender_output (env : Env) (cfg : Config) (unspent : List Unspent) :
    (∀ s, selectInput env cfg unspent = .ok s →
      ∃ u ∈ unspent, s = pick u ∧ owns env cfg u ∧
        ∃ script, DecodeString u.ScriptPubKey = some script ∧
          script.take 3 = [0x76, 0xa9, 0x14] ∧
          23 ≤ (script ++ env.spare u.ScriptPubKey).length ∧
          env.Base58Encode
            (versionedHash cfg.TestNet script (env.spare u.ScriptPubKey) ++
              (env.Hash256
                (versionedHash cfg.TestNet script (env.spare u.ScriptPubKey))).take 4) =
            cfg.AnchorKey ∧
          (23 ≤ script.length →
            versionedHash cfg.TestNet script (env.spare u.ScriptPubKey) =
              (if cfg.TestNet then 111 else 0) :: (script.drop 3).take 20)) ∧
    (∀ e, selectInput env cfg unspent = .error e → e ≠ .fault →
      e = .noFunds ∨ e = .scriptHexFailed ∨ e = .notEnough) := by
  constructor
  · intro s hs
    obtain ⟨_, hloop, hv⟩ := (selectInput_ok_iff env cfg unspent s).mp hs
    rcases selectLoop_picked env cfg unspent Sel.init s hloop with hr | ⟨u, hu, hq, hr⟩
    · rw [hr] at hv
      exact absurd hv (by decide)
    · obtain ⟨script, hd, hhead, hlen, hkey⟩ := (owns_iff env cfg u).mp hq.1
      refine ⟨u, hu, hr, hq.1, script, hd, hhead, hlen, hkey.symm, ?_⟩
      intro h23
      exact versionedHash_of_length cfg.TestNet script _ h23
  · intro e he hne
    unfold selectInput at he
    split at he
    · cases he; exact Or.inl rfl
    · split at he
      · cases he; exact Or.inr (Or.inl rfl)
      · cases he; exact absurd rfl hne
      · split at he
        · cases he; exact Or.inr (Or.inr rfl)
        · cases he

theorem demoUnspent_selected : selectInput demoEnv demoCfg demoUnspent = .ok (pick demoA2) :=
  (selectInput_ok_iff demoEnv demoCfg _ _).mpr ⟨by decide, demoUnspent_loop, by decide⟩

/-- The amended C2 at the wallet `demoUnspent` and at the empty list. -/
theorem selection_picks_sender_output_witness :
    selectInput demoEnv demoCfg demoUnspent = .ok (pick demoA2) ∧
      (∃ u ∈ demoUnspent, pick demoA2 = pick u ∧ owns demoEnv demoCfg u) ∧
      selectInput demoEnv demoCfg [] = .error .noFunds ∧ Exit.noFunds ≠ Exit.fault ∧
      (Exit.noFunds = .noFunds ∨ Exit.noFunds = .scriptHexFailed ∨ Exit.noFunds = .notEnough) := by
  have hempty : selectInput demoEnv demoCfg [] = .error .noFunds := by simp [selectInput]
  obtain ⟨u, hu, hp, ho, _⟩ :=
    (selection_picks_sender_output demoEnv demoCfg demoUnspent).1 _ demoUnspent_selected
  exact ⟨demoUnspent_selected, ⟨u, hu, hp, ho⟩, hempty, by decide,
    (selection_picks_sender_output demoEnv demoCfg []).2 _ hempty (by decide)⟩

theorem not_qualifies_of_init (env : Env) (cfg : Config) (unspent : List Unspent)
    (hv : ∀ u ∈ unspent, 0 ≤ u.Output.Vout)
    (hloop : selectLoop env cfg unspent Sel.init = .done Sel.init) :
    ¬ ∃ u ∈ unspent, qualifies env cfg u := by
  rintro ⟨u, hu, hq⟩
  rcases selectLoop_done env cfg unspent Sel.init Sel.init hv hloop with
    ⟨_, hall⟩ | ⟨pre, w, post, hsplit, _, hr, _, _, _⟩
  · exact absurd (hall u hu hq).1 (by decide)
  · have hw : 0 ≤ w.Output.Vout := hv w (by rw [hsplit]; simp)
    have : (pick w).vout = Sel.init.vout := by rw [← hr]
    simp only [pick, Sel.init] at this
    omega

/-- C4 as stated fails: an output with a well-formed script of the sender and an
amount above twice the fee, but a negative output index, qualifies, and the run
still ends with the no-eligible-input failure. -/
theorem negative_index_is_not_eligible :
    WellFormed demoNeg ∧ owns demoEnv demoCfg demoNeg ∧ 2 * demoCfg.Fee < demoNeg.Amount ∧
      selectInput demoEnv demoCfg [demoNeg] = .error .notEnough := by
  refine ⟨wellFormed_scriptA demoNeg rfl, classify_scriptA demoNeg rfl, ?_, ?_⟩
  · simp only [demoCfg, demoNeg]
    norm_num
  · simp [selectInput, selectLoop, demoNeg, classify_scriptA, demoCfg, update, Sel.init, addrA]
    norm_num

/-- C4, amended: on the empty list the selection, and with it the run, ends with the
no-funds failure; on a non-empty list of outputs with well-formed scripts and
non-negative output indices, it ends with the no-eligible-input failure if and
only if no output both decodes to the sender address and has an amount strictly
greater than twice the fee; and when an output qualifies, an output is picked. -/
theorem selection_failure_classes (env : Env) (cfg : Config) :
    (selectInput env cfg [] = .error .noFunds ∧
      ∀ node, spend env node cfg [] = Run.stop .noFunds) ∧
    ∀ unspent : List Unspent, unspent ≠ [] → (∀ u ∈ unspent, WellFormed u) →
      (∀ u ∈ unspent, 0 ≤ u.Output.Vout) →
      (selectInput env cfg unspent = .error .notEnough ↔
        ¬ ∃ u ∈ unspent, owns env cfg u ∧ 2 * cfg.Fee < u.Amount) ∧
      (∀ node, selectInput env cfg unspent = .error .notEnough →
        spend env node cfg unspent = Run.stop .notEnough) ∧
      ((∃ u ∈ unspent, owns env cfg u ∧ 2 * cfg.Fee < u.Amount) →
        ∃ s, selectInput env cfg unspent = .ok s) := by
  refine ⟨⟨by simp [selectInput], fun node => by simp [spend, selectInput]⟩, ?_⟩
  intro unspent hne hwf hv
  obtain ⟨r, hloop⟩ := selectLoop_total env cfg unspent Sel.init hwf
  have hsel := selectInput_of_done env cfg unspent r hne hloop
  have hcases : (r = Sel.init ∧ ¬ ∃ u ∈ unspent, qualifies env cfg u) ∨
      (0 ≤ r.vout ∧ ∃ u ∈ unspent, qualifies env cfg u) := by
    rcases selectLoop_done env cfg unspent Sel.init r hv hloop with
      ⟨hr, _⟩ | ⟨pre, w, post, hsplit, hq, hr, _, _, _⟩
    · left
      refine ⟨hr, ?_⟩
      rw [hr] at hloop
      exact not_qualifies_of_init env cfg unspent hv hloop
    · right
      have hw : w ∈ unspent := by rw [hsplit]; simp
      refine ⟨?_, w, hw, hq⟩
      rw [hr]
      exact hv w hw
  refine ⟨?_, ?_, ?_⟩
  · rcases hcases with ⟨hr, hno⟩ | ⟨hpos, hex⟩
    · constructor
      · intro _
        exact hno
      · intro _
        rw [hsel, hr]
        rfl
    · constructor
      · intro h
        rw [hsel, if_neg (not_lt.mpr hpos)] at h
        cases h
      · intro h
        exact absurd hex h
  · intro node h
    simp [spend, h]
  · intro hex
    rcases hcases with ⟨_, hno⟩ | ⟨hpos, _⟩
    · exact absurd hex hno
    · exact ⟨r, by rw [hsel, if_neg (not_lt.mpr hpos)]⟩

/-- The amended C4 at the wallet `demoUnspent`, in which the 0.05 output qualifies. -/
theorem selection_failure_classes_witness :
    demoUnspent ≠ [] ∧ (∀ u ∈ demoUnspent, WellFormed u) ∧
      (∀ u ∈ demoUnspent, 0 ≤ u.Output.Vout) ∧
      (∃ u ∈ demoUnspent, owns demoEnv demoCfg u ∧ 2 * demoCfg.Fee < u.Amount) ∧
      ∃ s, selectInput demoEnv demoCfg demoUnspent = .ok s := by
  have hwf : ∀ u ∈ demoUnspent, WellFormed u := by
    intro u hu
    simp only [demoUnspent, List.mem_cons, List.mem_singleton, List.not_mem_nil, or_false] at hu
    rcases hu with rfl | rfl | rfl
    · exact wellFormed_scriptA _ rfl
    · exact wellFormed_scriptA _ rfl
    · exact wellFormed_scriptB _ rfl
  have hq : ∃ u ∈ demoUnspent, owns demoEnv demoCfg u ∧ 2 * demoCfg.Fee < u.Amount := by
    refine ⟨demoA2, by simp [demoUnspent], classify_scriptA demoA2 rfl, ?_⟩
    simp only [demoCfg, demoA2]
    norm_num
  exact ⟨by decide, hwf, demoUnspent_vout, hq,
    ((selection_failure_classes demoEnv demoCfg).2 demoUnspent (by decide) hwf
      demoUnspent_vout).2.2 hq⟩

/-- C5: on a list with non-negative output indices, let `u` be a qualifying output
whose amount is the least among the qualifying outputs and which is the first
with that amount.  Every pick of the selection has the transaction id, output
index and amount of `u`; on well-formed scripts the selection does pick; and
two picks on the same list are equal. -/
theorem selection_ties_first_seen (env : Env) (cfg : Config) (pre post : List Unspent)
    (u : Unspent) (hv : ∀ v ∈ pre ++ u :: post, 0 ≤ v.Output.Vout)
    (hown : owns env cfg u) (hamt : 2 * cfg.Fee < u.Amount)
    (hmin : ∀ v ∈ pre ++ u :: post, owns env cfg v → 2 * cfg.Fee < v.Amount →
      u.Amount ≤ v.Amount)
    (hfirst : ∀ v ∈ pre, owns env cfg v → 2 * cfg.Fee < v.Amount → v.Amount ≠ u.Amount) :
    (∀ s, selectInput env cfg (pre ++ u :: post) = .ok s →
      s.txid = u.Output.Id ∧ s.vout = u.Output.Vout ∧ s.balance = u.Amount) ∧
    ((∀ v ∈ pre ++ u :: post, WellFormed v) →
      selectInput env cfg (pre ++ u :: post) = .ok (pick u)) ∧
    (∀ s t, selectInput env cfg (pre ++ u :: post) = .ok s →
      selectInput env cfg (pre ++ u :: post) = .ok t → s = t) := by
  have hpre : ∀ v ∈ pre, qualifies env cfg v → u.Amount < v.Amount := by
    intro v hm hq
    have hle := hmin v (List.mem_append_left _ hm) hq.1 hq.2
    exact lt_of_le_of_ne hle (Ne.symm (hfirst v hm hq.1 hq.2))
  have hpost : ∀ v ∈ post, qualifies env cfg v → u.Amount ≤ v.Amount := by
    intro v hm hq
    exact hmin v (List.mem_append_right _ (List.mem_cons_of_mem _ hm)) hq.1 hq.2
  have hkey : ∀ r, selectLoop env cfg (pre ++ u :: post) Sel.init = .done r → r = pick u :=
    fun r h => selectLoop_first env cfg u post pre Sel.init r hv ⟨hown, hamt⟩
      (Or.inl (by decide)) hpre hpost h
  refine ⟨?_, ?_, ?_⟩
  · intro s hs
    obtain ⟨_, hloop, _⟩ := (selectInput_ok_iff env cfg _ s).mp hs
    rw [hkey s hloop]
    exact ⟨rfl, rfl, rfl⟩
  · intro hwf
    obtain ⟨r, hloop⟩ := selectLoop_total env cfg (pre ++ u :: post) Sel.init hwf
    have hr := hkey r hloop
    rw [hr] at hloop
    exact (selectInput_ok_iff env cfg _ _).mpr
      ⟨by simp, hloop, hv u (by simp)⟩
  · intro s t hs ht
    rw [hs] at ht
    cases ht
    rfl

/-- The statement of C5 at a wallet in which the second and the fourth output both
hold 0.05 of the sender: the second is picked. -/
theorem selection_ties_first_seen_witness :
    selectInput demoEnv demoCfg ([demoA1] ++ demoA2 :: [demoB, demoA3]) = .ok (pick demoA2) ∧
      (pick demoA2).txid = demoA2.Output.Id ∧ (pick demoA2).vout = demoA2.Output.Vout ∧
      (pick demoA2).balance = demoA2.Amount ∧ demoA3.Amount = demoA2.Amount := by
  have hmem : ∀ v ∈ [demoA1] ++ demoA2 :: [demoB, demoA3],
      v = demoA1 ∨ v = demoA2 ∨ v = demoB ∨ v = demoA3 := by
    intro v hm
    simpa using hm
  have hB : ¬ owns demoEnv demoCfg demoB := by
    unfold owns
    rw [show demoCfg.TestNet = true from rfl, classify_scriptB demoB rfl]
    decide
  have hsel : selectInput demoEnv demoCfg ([demoA1] ++ demoA2 :: [demoB, demoA3]) =
      .ok (pick demoA2) := by
    simp [selectInput, selectLoop, demoA1, demoA2, demoB, demoA3, classify_scriptA,
      classify_scriptB, demoCfg, update, Sel.init, addrA, addrB, pick]
    norm_num
  have h := (selection_ties_first_seen demoEnv demoCfg [demoA1] [demoB, demoA3] demoA2
    (by
      intro v hm
      rcases hmem v hm with rfl | rfl | rfl | rfl <;> decide)
    (classify_scriptA demoA2 rfl)
    (by simp only [demoCfg, demoA2]; norm_num)
    (by
      intro v hm ho _
      rcases hmem v hm with rfl | rfl | rfl | rfl
      · simp only [demoA1, demoA2]; norm_num
      · exact le_refl _
      · exact absurd ho hB
      · simp only [demoA3, demoA2]; norm_num)
    (by
      intro v hm _ _
      have hv1 : v = demoA1 := by simpa using hm
      rw [hv1]
      simp only [demoA1, demoA2]
      norm_num)).1 (pick demoA2) hsel
  exact ⟨hsel, h.1, h.2.1, h.2.2, rfl⟩

theorem roundHalfEven_eq (y : ℚ) (m : ℤ) (h : |y - m| < 1 / 2) : roundHalfEven y = m := by
  rw [abs_lt] at h
  obtain ⟨h1, h2⟩ := h
  by_cases hm : (m : ℚ) ≤ y
  · have hf : ⌊y⌋ = m := by
      rw [Int.floor_eq_iff]
      constructor
      · exact hm
      · linarith
    unfold roundHalfEven
    rw [hf, if_pos (by linarith)]
  · push_neg at hm
    have hf : ⌊y⌋ = m - 1 := by
      rw [Int.floor_eq_iff]
      push_cast
      constructor <;> linarith
    unfold roundHalfEven
    rw [hf]
    push_cast
    rw [if_neg (by linarith), if_pos (by linarith)]
    ring

theorem int_log_two_eq (x : ℚ) (e : ℤ) (hx : 0 < x) (h1 : (2 : ℚ) ^ e ≤ x) (h2 : x < (2 : ℚ) ^ (e + 1)) :
    Int.log 2 x = e := by
  have a := (Int.zpow_le_iff_le_log (b := 2) (by norm_num) hx).mp (by exact_mod_cast h1)
  have b := (Int.lt_zpow_iff_log_lt (b := 2) (by norm_num) hx).mp (by exact_mod_cast h2)
  omega

/-- The subtraction of line 301 at the `float64` values of 0.05 and 0.001: the
exact difference 56493153725735505 / 2^60 is rounded to 3530822107858469 / 2^56. -/
theorem demo_sub :
    subFloat64 (3602879701896397 / 2 ^ 56) (1152921504606847 / 2 ^ 60) =
      .finite (3530822107858469 / 2 ^ 56) := by
  have hx : (3602879701896397 / 2 ^ 56 - 1152921504606847 / 2 ^ 60 : ℚ) =
      56493153725735505 / 2 ^ 60 := by norm_num
  have hpos : (0 : ℚ) < 56493153725735505 / 2 ^ 60 := by norm_num
  have hlog : Int.log 2 |(56493153725735505 / 2 ^ 60 : ℚ)| = -5 := by
    rw [abs_of_pos hpos]
    exact int_log_two_eq _ _ hpos (by norm_num) (by norm_num)
  have hulp : ulpExp (56493153725735505 / 2 ^ 60) = -57 := by
    unfold ulpExp
    rw [hlog]
    rfl
  have hround : roundHalfEven (|(56493153725735505 / 2 ^ 60 : ℚ)| / 2 ^ (-57 : ℤ)) =
      7061644215716938 := by
    apply roundHalfEven_eq
    rw [abs_of_pos hpos, abs_lt]
    constructor <;> norm_num
  unfold subFloat64 roundFloat64
  rw [hx, if_neg (ne_of_gt hpos)]
  simp only [hulp, hround]
  rw [if_neg (by norm_num), if_neg (not_lt.mpr (le_of_lt hpos))]
  congr 1
  norm_num

theorem demo_bytes :
    bytes demoCfg64.Data =
      [91, 91, 84, 114, 117, 115, 116, 65, 110, 99, 104, 111, 114, 58, 68, 111, 109, 97, 105,
        110, 58, 101, 120, 97, 109, 112, 108, 101, 46, 111, 114, 103, 93, 93] := by
  rfl

/-! ## The pipeline: which calls a run makes -/

theorem mem_called (c d : Call) (r : Run) : c ∈ (r.called d).trace ↔ c = d ∨ c ∈ r.trace := by
  simp [Run.called]

theorem mem_send (node : Node) (raw : String) (c : Call) :
    c ∈ (send node raw).trace ↔ c = .SendRawTransaction raw := by
  unfold send
  split <;> simp [Run.called, Run.stop]

theorem mem_sign (node : Node) (raw : String) (c : Call) :
    c ∈ (sign node raw).trace ↔
      c = .SignRawTransaction raw "ALL" ∨
        ∃ signed complete, node.SignRawTransaction raw "ALL" = some (signed, complete) ∧
          (c = .DecodeRawTransactionAsObject signed ∨ c = .SendRawTransaction signed) := by
  unfold sign
  rw [mem_called]
  cases h : node.SignRawTransaction raw "ALL" with
  | none => simp [Run.stop]
  | some p =>
    obtain ⟨signed, complete⟩ := p
    cases complete <;> simp [VERBOSE, Run.warned, mem_called, mem_send]

theorem mem_build (env : Env) (node : Node) (cfg : Config) (s : Sel) (c : Call) :
    c ∈ (build env node cfg s).trace ↔
      c = .CreateRawTransaction [{ Id := s.txid, Vout := s.vout }]
          [{ Address := cfg.AnchorKey, Amount := subFloat64 s.balance cfg.Fee }] ∨
        ∃ raw, node.CreateRawTransaction [{ Id := s.txid, Vout := s.vout }]
            [{ Address := cfg.AnchorKey, Amount := subFloat64 s.balance cfg.Fee }] = some raw ∧
          (c = .NullDataScript (bytes cfg.Data) ∨
            ∃ script, env.NullDataScript (bytes cfg.Data) = some script ∧
              (c = .ReplaceScriptPubKey raw script ∨
                ∃ replaced, env.ReplaceScriptPubKey raw script = some replaced ∧
                  c ∈ (sign node replaced).trace)) := by
  unfold build
  simp only [mem_called]
  cases h1 : node.CreateRawTransaction [{ Id := s.txid, Vout := s.vout }]
      [{ Address := cfg.AnchorKey, Amount := subFloat64 s.balance cfg.Fee }] with
  | none => simp [Run.stop]
  | some raw =>
    simp only [mem_called, Option.some.injEq, exists_eq_left']
    cases h2 : env.NullDataScript (bytes cfg.Data) with
    | none => simp [Run.stop]
    | some script =>
      simp only [mem_called, Option.some.injEq, exists_eq_left']
      cases h3 : env.ReplaceScriptPubKey raw script with
      | none => simp [Run.stop]
      | some replaced => simp

theorem mem_spend (env : Env) (node : Node) (cfg : Config) (unspent : List Unspent) (c : Call) :
    c ∈ (spend env node cfg unspent).trace ↔
      ∃ s, selectInput env cfg unspent = .ok s ∧ s.balance ≤ cfg.Limit ∧
        c ∈ (build env node cfg s).trace := by
  unfold spend
  cases h : selectInput env cfg unspent with
  | error e => simp [Run.stop]
  | ok s =>
    by_cases hl : s.balance > cfg.Limit
    · simp only [hl, if_true, Run.stop, List.not_mem_nil, Except.ok.injEq, exists_eq_left',
        false_iff, not_and]
      intro hle
      exact absurd hl (not_lt.mpr hle)
    · simp only [hl, if_false, Except.ok.injEq, exists_eq_left', not_lt.mp hl, true_and]

theorem mem_body (env : Env) (node : Node) (cfg : Config) (c : Call) :
    c ∈ (body env node cfg).trace ↔
      c = .ListReceivedByAddress 6 false ∨
        ∃ rcv, node.ListReceivedByAddress 6 false = some rcv ∧ cfg.AnchorKey ∈ rcv ∧
          (c = .ListUnspent 6 999999 ∨
            ∃ unspent, node.ListUnspent 6 999999 = some unspent ∧
              c ∈ (spend env node cfg unspent).trace) := by
  unfold body
  rw [mem_called]
  cases h1 : node.ListReceivedByAddress 6 false with
  | none => simp [Run.stop]
  | some rcv =>
    by_cases hk : cfg.AnchorKey ∈ rcv
    · simp only [hk, if_true, mem_called, Option.some.injEq, exists_eq_left', true_and]
      cases h2 : node.ListUnspent 6 999999 with
      | none => simp [Run.stop]
      | some unspent => simp
    · simp [hk, Run.stop]

theorem mem_withWallet (env : Env) (node : Node) (cfg : Config) (c : Call) :
    c ∈ (withWallet env node cfg).trace ↔
      c = .WalletPassphrase cfg.Passphrase 600 ∨ c ∈ (body env node cfg).trace ∨
        c = .WalletLock := by
  unfold withWallet
  simp only [mem_called]
  split <;> simp [Run.warned]

theorem mem_main (host : Host) (env : Env) (node : Node) (c : Call) :
    c ∈ (main host env node).trace ↔
      ∃ cfg, loadConfig host = .ok cfg ∧
        (c = .NewSession cfg.Server cfg.User cfg.Password ∨
          (node.NewSession cfg.Server cfg.User cfg.Password = false ∧
            c ∈ (withWallet env node cfg).trace)) := by
  unfold main
  cases h : loadConfig host with
  | error e => simp [Run.stop]
  | ok cfg =>
    simp only [mem_called, Except.ok.injEq, exists_eq_left']
    cases hs : node.NewSession cfg.Server cfg.User cfg.Password <;> simp [Run.stop]

/-! ## The pipeline: the path of a run -/

theorem reaches_unique (host : Host) (node : Node) (cfg cfg2 : Config)
    (unspent unspent2 : List Unspent) (h : Reaches host node cfg unspent)
    (h2 : Reaches host node cfg2 unspent2) : cfg = cfg2 ∧ unspent = unspent2 := by
  obtain ⟨hc, _, _, hu⟩ := h
  obtain ⟨hc2, _, _, hu2⟩ := h2
  rw [hc] at hc2
  rw [hu] at hu2
  cases hc2
  cases hu2
  exact ⟨rfl, rfl⟩

theorem builds_unique (host : Host) (env : Env) (node : Node) (cfg cfg2 : Config) (s s2 : Sel)
    (h : Builds host env node cfg s) (h2 : Builds host env node cfg2 s2) :
    cfg = cfg2 ∧ s = s2 := by
  obtain ⟨unspent, hr, hs, _⟩ := h
  obtain ⟨unspent2, hr2, hs2, _⟩ := h2
  obtain ⟨rfl, rfl⟩ := reaches_unique host node cfg cfg2 unspent unspent2 hr hr2
  rw [hs] at hs2
  cases hs2
  exact ⟨rfl, rfl⟩

theorem signs_unique (host : Host) (env : Env) (node : Node) (raw raw2 : String)
    (h : Signs host env node raw) (h2 : Signs host env node raw2) : raw = raw2 := by
  obtain ⟨cfg, s, r, script, hb, hc, hn, hp⟩ := h
  obtain ⟨cfg2, s2, r2, script2, hb2, hc2, hn2, hp2⟩ := h2
  obtain ⟨rfl, rfl⟩ := builds_unique host env node cfg cfg2 s s2 hb hb2
  rw [hc] at hc2
  cases hc2
  rw [hn] at hn2
  cases hn2
  rw [hp] at hp2
  cases hp2
  rfl

/-- The run of a session: the unlock, the body, the deferred lock. -/
theorem main_of_session (host : Host) (env : Env) (node : Node) (cfg : Config)
    (hc : loadConfig host = .ok cfg)
    (hs : node.NewSession cfg.Server cfg.User cfg.Password = false) :
    (main host env node).trace =
        .NewSession cfg.Server cfg.User cfg.Password :: .WalletPassphrase cfg.Passphrase 600 ::
          ((body env node cfg).trace ++ [.WalletLock]) ∧
      (main host env node).exit = (body env node cfg).exit ∧
      (main host env node).warnings =
        (if node.WalletPassphrase cfg.Passphrase 600 then [Warning.unlockFailed] else []) ++
          (body env node cfg).warnings ++
          (if node.WalletLock then [Warning.lockFailed] else []) := by
  unfold main withWallet
  simp only [hc, hs]
  by_cases hw : node.WalletPassphrase cfg.Passphrase 600 = true <;>
    simp [hw, Run.called, Run.warned]

/-- The trace and the exit of a run that gets to the selection. -/
theorem main_of_reaches (host : Host) (env : Env) (node : Node) (cfg : Config)
    (unspent : List Unspent) (h : Reaches host node cfg unspent) :
    (main host env node).trace =
        [.NewSession cfg.Server cfg.User cfg.Password, .WalletPassphrase cfg.Passphrase 600,
          .ListReceivedByAddress 6 false, .ListUnspent 6 999999] ++
          (spend env node cfg unspent).trace ++ [.WalletLock] ∧
      (main host env node).exit = (spend env node cfg unspent).exit := by
  obtain ⟨hc, hs, ⟨rcv, hr, hk⟩, hu⟩ := h
  obtain ⟨ht, he, _⟩ := main_of_session host env node cfg hc hs
  rw [ht, he]
  unfold body
  simp [hr, hk, hu, Run.called]

theorem mem_main_build (host : Host) (env : Env) (node : Node) (c : Call)
    (hc : ∀ cfg : Config, c ≠ .NewSession cfg.Server cfg.User cfg.Password ∧
      c ≠ .WalletPassphrase cfg.Passphrase 600)
    (h1 : c ≠ .ListReceivedByAddress 6 false) (h2 : c ≠ .ListUnspent 6 999999)
    (h3 : c ≠ .WalletLock) :
    c ∈ (main host env node).trace ↔
      ∃ cfg s, Builds host env node cfg s ∧ c ∈ (build env node cfg s).trace := by
  simp only [mem_main, mem_withWallet, mem_body, mem_spend, Builds, Reaches]
  constructor
  · rintro ⟨cfg, hcfg, hn | ⟨hs, hw | (hl | ⟨rcv, hr, hk, hu | ⟨unspent, hu, s, hsel, hlim, hb⟩⟩) | hk⟩⟩
    · exact absurd hn (hc cfg).1
    · exact absurd hw (hc cfg).2
    · exact absurd hl h1
    · exact absurd hu h2
    · exact ⟨cfg, s, ⟨unspent, ⟨hcfg, hs, ⟨rcv, hr, hk⟩, hu⟩, hsel, hlim⟩, hb⟩
    · exact absurd hk h3
  · rintro ⟨cfg, s, ⟨unspent, ⟨hcfg, hs, ⟨rcv, hr, hk⟩, hu⟩, hsel, hlim⟩, hb⟩
    exact ⟨cfg, hcfg, Or.inr ⟨hs, Or.inr (Or.inl (Or.inr
      ⟨rcv, hr, hk, Or.inr ⟨unspent, hu, s, hsel, hlim, hb⟩⟩))⟩⟩

theorem mem_main_sign (host : Host) (env : Env) (node : Node) (raw mode : String) :
    Call.SignRawTransaction raw mode ∈ (main host env node).trace ↔
      Signs host env node raw ∧ mode = "ALL" := by
  rw [mem_main_build host env node _ (by simp) (by simp) (by simp) (by simp)]
  simp only [mem_build, mem_sign, Signs]
  constructor
  · rintro ⟨cfg, s, hb, h⟩
    simp at h
    obtain ⟨r, hr, script, hn, replaced, hp, rfl, rfl⟩ := h
    exact ⟨⟨cfg, s, r, script, hb, hr, hn, hp⟩, rfl⟩
  · rintro ⟨⟨cfg, s, r, script, hb, hr, hn, hp⟩, rfl⟩
    refine ⟨cfg, s, hb, ?_⟩
    simp
    exact ⟨r, hr, script, hn, hp⟩

theorem mem_main_send (host : Host) (env : Env) (node : Node) (signed : String) :
    Call.SendRawTransaction signed ∈ (main host env node).trace ↔
      ∃ raw complete, Signs host env node raw ∧
        node.SignRawTransaction raw "ALL" = some (signed, complete) := by
  rw [mem_main_build host env node _ (by simp) (by simp) (by simp) (by simp)]
  simp only [mem_build, mem_sign, Signs]
  constructor
  · rintro ⟨cfg, s, hb, h⟩
    simp only [reduceCtorEq, false_or, Call.SendRawTransaction.injEq] at h
    obtain ⟨r, hr, script, hn, replaced, hp, sg, complete, hsg, rfl⟩ := h
    exact ⟨replaced, complete, ⟨cfg, s, r, script, hb, hr, hn, hp⟩, hsg⟩
  · rintro ⟨raw, complete, ⟨cfg, s, r, script, hb, hr, hn, hp⟩, hsg⟩
    refine ⟨cfg, s, hb, Or.inr ⟨r, hr, Or.inr ⟨script, hn, Or.inr ⟨raw, hp, Or.inr
      ⟨signed, complete, hsg, Or.inr rfl⟩⟩⟩⟩⟩

theorem build_exit (env : Env) (node : Node) (cfg : Config) (s : Sel) :
    (build env node cfg s).exit ≠ .limitExceeded := by
  unfold build sign send
  simp only [VERBOSE, Run.called, Run.warned, Run.stop]
  repeat' split
  all_goals simp

theorem walletLock_not_in_body (env : Env) (node : Node) (cfg : Config) :
    Call.WalletLock ∉ (body env node cfg).trace := by
  simp [mem_body, mem_spend, mem_build, mem_sign]

/-! ## The concrete instance: runs -/

theorem demo_loadConfig : loadConfig demoHost = .ok demoCfg := by
  rfl

theorem demo_reaches : Reaches demoHost demoNode demoCfg demoUnspent := by
  refine ⟨demo_loadConfig, rfl, ⟨[addrA], rfl, ?_⟩, rfl⟩
  simp [demoCfg]

theorem demo_builds : Builds demoHost demoEnv demoNode demoCfg (pick demoA2) := by
  refine ⟨demoUnspent, demo_reaches, demoUnspent_selected, ?_⟩
  simp only [pick, demoA2, demoCfg]
  norm_num

theorem demoLarge_selected : selectInput demoEnv demoCfg [demoA1] = .ok (pick demoA1) := by
  simp [selectInput, selectLoop, demoA1, classify_scriptA, demoCfg, update, Sel.init, addrA,
    pick]
  norm_num

theorem demoLarge_reaches : Reaches demoHost demoNodeLarge demoCfg [demoA1] := by
  refine ⟨demo_loadConfig, rfl, ⟨[addrA], rfl, ?_⟩, rfl⟩
  simp [demoCfg]

theorem demo_limit : ¬ (pick demoA2).balance > demoCfg.Limit := by
  simp only [pick, demoA2, demoCfg]
  norm_num

theorem demo_spend (node : Node) :
    spend demoEnv node demoCfg demoUnspent = build demoEnv node demoCfg (pick demoA2) := by
  unfold spend
  rw [demoUnspent_selected]
  simp only [demo_limit, if_false]

theorem demo_body (node : Node) (hr : node.ListReceivedByAddress 6 false = some [addrA])
    (hu : node.ListUnspent 6 999999 = some demoUnspent) :
    body demoEnv node demoCfg =
      ((build demoEnv node demoCfg (pick demoA2)).called (.ListUnspent 6 999999)).called
        (.ListReceivedByAddress 6 false) := by
  unfold body
  rw [hr, hu]
  have hk : demoCfg.AnchorKey ∈ [addrA] := by simp [demoCfg]
  simp only [hk, if_true, demo_spend]

theorem demoLocked_build :
    build demoEnv demoNodeLocked demoCfg (pick demoA2) =
      { trace :=
          [.CreateRawTransaction [{ Id := "t2", Vout := 1 }]
              [{ Address := addrA, Amount := subFloat64 (pick demoA2).balance demoCfg.Fee }],
            .NullDataScript (bytes demoCfg.Data),
            .ReplaceScriptPubKey "raw"
              (0x6a :: (bytes demoCfg.Data).length :: bytes demoCfg.Data),
            .SignRawTransaction "raw+data" "ALL",
            .DecodeRawTransactionAsObject "raw+data+sig",
            .SendRawTransaction "raw+data+sig"],
        warnings := [],
        exit := .ok } := by
  rfl

theorem demoIncomplete_signs : Signs demoHost demoEnv demoNodeIncomplete "raw+data" := by
  refine ⟨demoCfg, pick demoA2, "raw", 0x6a :: (bytes demoCfg.Data).length :: bytes demoCfg.Data,
    ⟨demoUnspent, ⟨demo_loadConfig, rfl, ⟨[addrA], rfl, ?_⟩, rfl⟩, demoUnspent_selected, ?_⟩,
    rfl, rfl, rfl⟩
  · simp [demoCfg]
  · exact not_lt.mp demo_limit

/-- The errors of the other steps do end the run: after each of them the stage makes
no further call. -/
theorem other_errors_stop (env : Env) (node : Node) (cfg : Config) :
    (node.ListReceivedByAddress 6 false = none →
      body env node cfg =
        { trace := [.ListReceivedByAddress 6 false], warnings := [], exit := .receivedFailed }) ∧
    (∀ rcv, node.ListReceivedByAddress 6 false = some rcv → cfg.AnchorKey ∈ rcv →
      node.ListUnspent 6 999999 = none →
      body env node cfg =
        { trace := [.ListReceivedByAddress 6 false, .ListUnspent 6 999999], warnings := [],
          exit := .unspentFailed }) ∧
    (∀ unspent e, selectInput env cfg unspent = .error e →
      spend env node cfg unspent = Run.stop e) ∧
    (∀ s, node.CreateRawTransaction [{ Id := s.txid, Vout := s.vout }]
        [{ Address := cfg.AnchorKey, Amount := subFloat64 s.balance cfg.Fee }] = none →
      (build env node cfg s).trace =
          [.CreateRawTransaction [{ Id := s.txid, Vout := s.vout }]
            [{ Address := cfg.AnchorKey, Amount := subFloat64 s.balance cfg.Fee }]] ∧
        (build env node cfg s).exit = .createFailed) ∧
    (∀ s raw, node.CreateRawTransaction [{ Id := s.txid, Vout := s.vout }]
        [{ Address := cfg.AnchorKey, Amount := subFloat64 s.balance cfg.Fee }] = some raw →
      env.NullDataScript (bytes cfg.Data) = none →
      (build env node cfg s).trace =
          [.CreateRawTransaction [{ Id := s.txid, Vout := s.vout }]
            [{ Address := cfg.AnchorKey, Amount := subFloat64 s.balance cfg.Fee }],
            .NullDataScript (bytes cfg.Data)] ∧
        (build env node cfg s).exit = .nullDataFailed) ∧
    (∀ s raw script, node.CreateRawTransaction [{ Id := s.txid, Vout := s.vout }]
        [{ Address := cfg.AnchorKey, Amount := subFloat64 s.balance cfg.Fee }] = some raw →
      env.NullDataScript (bytes cfg.Data) = some script →
      env.ReplaceScriptPubKey raw script = none →
      (build env node cfg s).trace =
          [.CreateRawTransaction [{ Id := s.txid, Vout := s.vout }]
            [{ Address := cfg.AnchorKey, Amount := subFloat64 s.balance cfg.Fee }],
            .NullDataScript (bytes cfg.Data), .ReplaceScriptPubKey raw script] ∧
        (build env node cfg s).exit = .replaceFailed) ∧
    (∀ raw, node.SignRawTransaction raw "ALL" = none →
      sign node raw =
        { trace := [.SignRawTransaction raw "ALL"], warnings := [], exit := .signFailed }) ∧
    (∀ raw, node.SendRawTransaction raw = true →
      send node raw =
        { trace := [.SendRawTransaction raw], warnings := [], exit := .sendFailed }) := by
  refine ⟨?_, ?_, ?_, ?_, ?_, ?_, ?_, ?_⟩
  · intro h
    simp [body, h, Run.called, Run.stop]
  · intro rcv h hk hu
    simp [body, h, hk, hu, Run.called, Run.stop]
  · intro unspent e h
    simp [spend, h]
  · intro s h
    simp [build, h, Run.called, Run.stop]
  · intro s raw h hn
    simp [build, h, hn, Run.called, Run.stop]
  · intro s raw script h hn hr
    simp [build, h, hn, hr, Run.called, Run.stop]
  · intro raw h
    simp [sign, h, Run.called, Run.stop]
  · intro raw h
    simp [send, h, Run.called, Run.stop]

/-! ## The claims on the pipeline -/

/-- C3: in a run in which the selection picks an output, if the picked amount is
strictly greater than the limit the run ends with the limit-exceeded failure and
its calls are the session, the unlock, the two listings and the lock: no
CreateRawTransaction, SignRawTransaction or SendRawTransaction call is made.  If
the picked amount is at most the limit, equality included, the run goes on to
CreateRawTransaction. -/
theorem limit_check_guards_build (host : Host) (env : Env) (node : Node) (cfg : Config)
    (unspent : List Unspent) (s : Sel) (hreach : Reaches host node cfg unspent)
    (hsel : selectInput env cfg unspent = .ok s) :
    (cfg.Limit < s.balance →
      (main host env node).exit = .limitExceeded ∧
        (main host env node).trace =
          [.NewSession cfg.Server cfg.User cfg.Password, .WalletPassphrase cfg.Passphrase 600,
            .ListReceivedByAddress 6 false, .ListUnspent 6 999999, .WalletLock] ∧
        (∀ outs ins, Call.CreateRawTransaction outs ins ∉ (main host env node).trace) ∧
        (∀ raw mode, Call.SignRawTransaction raw mode ∉ (main host env node).trace) ∧
        (∀ raw, Call.SendRawTransaction raw ∉ (main host env node).trace)) ∧
    (s.balance ≤ cfg.Limit →
      Call.CreateRawTransaction [{ Id := s.txid, Vout := s.vout }]
          [{ Address := cfg.AnchorKey, Amount := subFloat64 s.balance cfg.Fee }] ∈
        (main host env node).trace ∧
      (main host env node).exit ≠ .limitExceeded) := by
  obtain ⟨ht, he⟩ := main_of_reaches host env node cfg unspent hreach
  constructor
  · intro hlim
    have hspend : spend env node cfg unspent = Run.stop .limitExceeded := by
      simp [spend, hsel, hlim]
    rw [hspend] at ht he
    simp only [Run.stop, List.append_nil] at ht he
    refine ⟨he, ht, ?_, ?_, ?_⟩ <;> intros <;> rw [ht] <;> simp
  · intro hlim
    have hspend : spend env node cfg unspent = build env node cfg s := by
      simp [spend, hsel, not_lt.mpr hlim]
    rw [hspend] at ht he
    constructor
    · rw [ht]
      simp [mem_build]
    · rw [he]
      exact build_exit env node cfg s

/-- The statement of C3 at a wallet whose only output of 0.5 exceeds the limit 0.1,
and at the wallet `demoUnspent`, whose pick of 0.05 does not. -/
theorem limit_check_guards_build_witness :
    (Reaches demoHost demoNodeLarge demoCfg [demoA1] ∧
      selectInput demoEnv demoCfg [demoA1] = .ok (pick demoA1) ∧
      demoCfg.Limit < (pick demoA1).balance ∧
      (main demoHost demoEnv demoNodeLarge).exit = .limitExceeded) ∧
    (Reaches demoHost demoNode demoCfg demoUnspent ∧
      selectInput demoEnv demoCfg demoUnspent = .ok (pick demoA2) ∧
      (pick demoA2).balance ≤ demoCfg.Limit ∧
      (main demoHost demoEnv demoNode).exit ≠ .limitExceeded) := by
  have h1 : demoCfg.Limit < (pick demoA1).balance := by
    simp only [pick, demoA1, demoCfg]
    norm_num
  have h2 : (pick demoA2).balance ≤ demoCfg.Limit := by
    simp only [pick, demoA2, demoCfg]
    norm_num
  exact ⟨⟨demoLarge_reaches, demoLarge_selected, h1,
      ((limit_check_guards_build demoHost demoEnv demoNodeLarge demoCfg [demoA1] (pick demoA1)
        demoLarge_reaches demoLarge_selected).1 h1).1⟩,
    demo_reaches, demoUnspent_selected, h2,
      ((limit_check_guards_build demoHost demoEnv demoNode demoCfg demoUnspent (pick demoA2)
        demo_reaches demoUnspent_selected).2 h2).2⟩

theorem demo64_selected : selectInput demoEnv demoCfg64 [demoU64] = .ok (pick demoU64) := by
  have hc : classify demoEnv demoCfg64.TestNet demoU64 = .addr addrA :=
    classify_scriptA demoU64 rfl
  have hk : demoCfg64.AnchorKey = addrA := rfl
  have hu : update demoCfg64 Sel.init demoU64 = pick demoU64 :=
    update_eq_pick demoCfg64 Sel.init demoU64
      (by simp only [demoCfg64, demoU64]; norm_num) (Or.inl (by decide))
  refine (selectInput_ok_iff demoEnv demoCfg64 _ _).mpr ⟨by simp, ?_, by decide⟩
  simp [selectLoop, hc, hk, hu]

theorem demo64_builds : Builds demoHost64 demoEnv demoNode64 demoCfg64 (pick demoU64) := by
  refine ⟨[demoU64], ⟨rfl, rfl, ⟨[addrA], rfl, ?_⟩, rfl⟩, demo64_selected, ?_⟩
  · simp [demoCfg64, demoCfg]
  · simp only [pick, demoU64, demoCfg64]
    norm_num

theorem demo64_sub :
    subFloat64 (pick demoU64).balance demoCfg64.Fee = .finite (3530822107858469 / 2 ^ 56) :=
  demo_sub

theorem demo64_build :
    build demoEnv demoNode64 demoCfg64 (pick demoU64) =
      { trace :=
          [.CreateRawTransaction [{ Id := "t2", Vout := 1 }]
              [{ Address := addrA, Amount := subFloat64 (pick demoU64).balance demoCfg64.Fee }],
            .NullDataScript (bytes demoCfg64.Data),
            .ReplaceScriptPubKey "raw"
              (0x6a :: (bytes demoCfg64.Data).length :: bytes demoCfg64.Data),
            .SignRawTransaction "raw+data" "ALL",
            .DecodeRawTransactionAsObject "raw+data+sig",
            .SendRawTransaction "raw+data+sig"],
        warnings := [],
        exit := .ok } := by
  rfl

/-- The calls of the run on the `float64` values of the amount 0.05 and the fee
0.001, with the data string "[[TrustAnchor:Domain:example.org]]". -/
theorem demo64_trace :
    (main demoHost64 demoEnv demoNode64).trace =
      [.NewSession "http://localhost:18332" "u" "p", .WalletPassphrase "secret" 600,
        .ListReceivedByAddress 6 false, .ListUnspent 6 999999,
        .CreateRawTransaction [{ Id := "t2", Vout := 1 }]
          [{ Address := addrA, Amount := .finite (3530822107858469 / 2 ^ 56) }],
        .NullDataScript
          [91, 91, 84, 114, 117, 115, 116, 65, 110, 99, 104, 111, 114, 58, 68, 111, 109, 97,
            105, 110, 58, 101, 120, 97, 109, 112, 108, 101, 46, 111, 114, 103, 93, 93],
        .ReplaceScriptPubKey "raw"
          [106, 34, 91, 91, 84, 114, 117, 115, 116, 65, 110, 99, 104, 111, 114, 58, 68, 111,
            109, 97, 105, 110, 58, 101, 120, 97, 109, 112, 108, 101, 46, 111, 114, 103, 93, 93],
        .SignRawTransaction "raw+data" "ALL",
        .DecodeRawTransactionAsObject "raw+data+sig",
        .SendRawTransaction "raw+data+sig", .WalletLock] := by
  obtain ⟨unspent, hreach, hsel, hlim⟩ := demo64_builds
  obtain ⟨ht, _⟩ := main_of_reaches demoHost64 demoEnv demoNode64 demoCfg64 unspent hreach
  have hspend : spend demoEnv demoNode64 demoCfg64 unspent =
      build demoEnv demoNode64 demoCfg64 (pick demoU64) := by
    simp [spend, hsel, not_lt.mpr hlim]
  rw [ht, hspend, demo64_build, demo64_sub, demo_bytes]
  rfl

/-- C10: when the run calls SignRawTransaction, always in mode "ALL": if the node
answers without error that the signature is not complete, SendRawTransaction is
called, and only with the raw transaction that the signing step returned; if
the node answers with an error, SendRawTransaction is not called. -/
theorem incomplete_signature_is_sent (host : Host) (env : Env) (node : Node)
    (raw mode : String)
    (hcall : Call.SignRawTransaction raw mode ∈ (main host env node).trace) :
    mode = "ALL" ∧
      (∀ signed, node.SignRawTransaction raw "ALL" = some (signed, false) →
        Call.SendRawTransaction signed ∈ (main host env node).trace ∧
          ∀ r, Call.SendRawTransaction r ∈ (main host env node).trace → r = signed) ∧
      (node.SignRawTransaction raw "ALL" = none →
        ∀ r, Call.SendRawTransaction r ∉ (main host env node).trace) := by
  obtain ⟨hsigns, hmode⟩ := (mem_main_sign host env node raw mode).mp hcall
  refine ⟨hmode, ?_, ?_⟩
  · intro signed hanswer
    refine ⟨(mem_main_send host env node signed).mpr ⟨raw, false, hsigns, hanswer⟩, ?_⟩
    intro r hr
    obtain ⟨raw2, complete, hsigns2, hanswer2⟩ := (mem_main_send host env node r).mp hr
    have hraw := signs_unique host env node raw raw2 hsigns hsigns2
    rw [← hraw, hanswer] at hanswer2
    cases hanswer2
    rfl
  · intro herr r hr
    obtain ⟨raw2, complete, hsigns2, hanswer2⟩ := (mem_main_send host env node r).mp hr
    have hraw := signs_unique host env node raw raw2 hsigns hsigns2
    rw [← hraw, herr] at hanswer2
    cases hanswer2

/-- The statement of C10 at a node that reports an incomplete signature. -/
theorem incomplete_signature_is_sent_witness :
    Call.SignRawTransaction "raw+data" "ALL" ∈ (main demoHost demoEnv demoNodeIncomplete).trace ∧
      demoNodeIncomplete.SignRawTransaction "raw+data" "ALL" = some ("raw+data+sig", false) ∧
      Call.SendRawTransaction "raw+data+sig" ∈
        (main demoHost demoEnv demoNodeIncomplete).trace := by
  have hcall : Call.SignRawTransaction "raw+data" "ALL" ∈
      (main demoHost demoEnv demoNodeIncomplete).trace :=
    (mem_main_sign demoHost demoEnv demoNodeIncomplete "raw+data" "ALL").mpr
      ⟨demoIncomplete_signs, rfl⟩
  exact ⟨hcall, rfl,
    ((incomplete_signature_is_sent demoHost demoEnv demoNodeIncomplete "raw+data" "ALL"
      hcall).2.1 "raw+data+sig" rfl).1⟩

/-- C7: the code lets a run go on after a wallet-unlock error.  On a node that
refuses the passphrase and answers every other call, `main` prints the
diagnostic of line 191 and then makes every later call of the pipeline, up to
SendRawTransaction, before the lock. -/
theorem unlock_error_does_not_stop_the_run :
    main demoHost demoEnv demoNodeLocked =
      { trace :=
          [.NewSession "http://localhost:18332" "u" "p", .WalletPassphrase "secret" 600,
            .ListReceivedByAddress 6 false, .ListUnspent 6 999999,
            .CreateRawTransaction [{ Id := "t2", Vout := 1 }]
              [{ Address := addrA, Amount := subFloat64 (pick demoA2).balance demoCfg.Fee }],
            .NullDataScript (bytes demoCfg.Data),
            .ReplaceScriptPubKey "raw"
              (0x6a :: (bytes demoCfg.Data).length :: bytes demoCfg.Data),
            .SignRawTransaction "raw+data" "ALL",
            .DecodeRawTransactionAsObject "raw+data+sig",
            .SendRawTransaction "raw+data+sig", .WalletLock],
        warnings := [.unlockFailed],
        exit := .ok } := by
  unfold main
  rw [demo_loadConfig]
  simp only [withWallet, demo_body demoNodeLocked rfl rfl, demoLocked_build]
  rfl

/-- C8 as stated fails: a run that ends before the session exists makes no
WalletLock call.  When the injection file cannot be opened the run makes no
call at all, and when session creation fails its only call is NewSession. -/
theorem no_lock_before_session :
    (main demoHostNoFile demoEnv demoNode = Run.stop .openFailed ∧
        (main demoHostNoFile demoEnv demoNode).trace.count .WalletLock = 0) ∧
      ((main demoHost demoEnv demoNodeNoSession).trace =
          [.NewSession "http://localhost:18332" "u" "p"] ∧
        (main demoHost demoEnv demoNodeNoSession).exit = .sessionFailed ∧
        (main demoHost demoEnv demoNodeNoSession).trace.count .WalletLock = 0) := by
  have h1 : main demoHostNoFile demoEnv demoNode = Run.stop .openFailed := by rfl
  have h2 : main demoHost demoEnv demoNodeNoSession =
      { trace := [.NewSession "http://localhost:18332" "u" "p"], warnings := [],
        exit := .sessionFailed } := by rfl
  refine ⟨⟨h1, ?_⟩, ?_, ?_, ?_⟩
  · rw [h1]; rfl
  · rw [h2]
  · rw [h2]
  · rw [h2]; decide

/-- C8, amended: in every run in which the session is created, whether the unlock
fails, the selection fails or faults, the broadcast fails or everything
succeeds, the trace contains exactly one WalletLock call and it is the last
call; a run that ends before that makes no WalletLock call. -/
theorem wallet_lock_once_per_session (host : Host) (env : Env) (node : Node) :
    (∀ cfg, loadConfig host = .ok cfg →
      node.NewSession cfg.Server cfg.User cfg.Password = false →
      (main host env node).trace.count .WalletLock = 1 ∧
        (main host env node).trace.getLast? = some .WalletLock) ∧
    (∀ e, loadConfig host = .error e → (main host env node).trace = []) ∧
    (∀ cfg, loadConfig host = .ok cfg →
      node.NewSession cfg.Server cfg.User cfg.Password = true →
      (main host env node).trace = [.NewSession cfg.Server cfg.User cfg.Password]) := by
  refine ⟨?_, ?_, ?_⟩
  · intro cfg hc hs
    obtain ⟨ht, _, _⟩ := main_of_session host env node cfg hc hs
    rw [ht]
    have hnot := walletLock_not_in_body env node cfg
    constructor
    · simp [List.count_cons, List.count_append, List.count_eq_zero_of_not_mem hnot]
    · rw [← List.cons_append, ← List.cons_append]
      exact List.getLast?_concat _
  · intro e hc
    simp [main, hc, Run.stop]
  · intro cfg hc hs
    simp [main, hc, hs, Run.stop, Run.called]

/-- The amended C8 at a run with a session, at a run without an injection file and
at a run whose session creation fails. -/
theorem wallet_lock_once_per_session_witness :
    loadConfig demoHost = .ok demoCfg ∧
      demoNodeLocked.NewSession demoCfg.Server demoCfg.User demoCfg.Password = false ∧
      (main demoHost demoEnv demoNodeLocked).trace.count .WalletLock = 1 ∧
      (main demoHost demoEnv demoNodeLocked).trace.getLast? = some .WalletLock ∧
      loadConfig demoHostNoFile = .error .openFailed ∧
      (main demoHostNoFile demoEnv demoNode).trace = [] ∧
      demoNodeNoSession.NewSession demoCfg.Server demoCfg.User demoCfg.Password = true ∧
      (main demoHost demoEnv demoNodeNoSession).trace =
        [.NewSession demoCfg.Server demoCfg.User demoCfg.Password] :=
  ⟨demo_loadConfig, rfl,
    ((wallet_lock_once_per_session demoHost demoEnv demoNodeLocked).1 demoCfg demo_loadConfig
      rfl).1,
    ((wallet_lock_once_per_session demoHost demoEnv demoNodeLocked).1 demoCfg demo_loadConfig
      rfl).2,
    rfl, (wallet_lock_once_per_session demoHostNoFile demoEnv demoNode).2.1 _ rfl, rfl,
    (wallet_lock_once_per_session demoHost demoEnv demoNodeNoSession).2.2 demoCfg
      demo_loadConfig rfl⟩

end TrustAnchor
